import Mathlib

/-!
Shallow embedding of the ESAA event-sourcing core (src/esaa): JSON values,
Python-dict primitives, canonical JSON hashing (utils.py), the legacy-event
normalizer (compat.py), the event-store parser (store.py), the projector
(projector.py), the path validator (validator.py) and the replay service
(service.py), together with theorems about the frozen claims.
-/

namespace ESAA

/-- JSON values as produced by `json.loads`; objects keep insertion order
(Python dicts), numbers are integers (no claim involves floats). -/
inductive Json where
  | null
  | bool (b : Bool)
  | num (n : Int)
  | str (s : String)
  | arr (elems : List Json)
  | obj (fields : List (String × Json))

mutual
/-- Structural equality of JSON values (Python `==` on decoded values,
up to the `bool`/`int` crossover). -/
def Json.beq : Json → Json → Bool
  | .null, .null => true
  | .bool a, .bool b => a == b
  | .num a, .num b => a == b
  | .str a, .str b => a == b
  | .arr xs, .arr ys => Json.beqList xs ys
  | .obj xs, .obj ys => Json.beqKvs xs ys
  | _, _ => false

def Json.beqList : List Json → List Json → Bool
  | [], [] => true
  | x :: xs, y :: ys => Json.beq x y && Json.beqList xs ys
  | _, _ => false

def Json.beqKvs : List (String × Json) → List (String × Json) → Bool
  | [], [] => true
  | (k, v) :: xs, (k', v') :: ys =>
    k == k' && Json.beq v v' && Json.beqKvs xs ys
  | _, _ => false
end

mutual
theorem Json.beq_iff : ∀ a b : Json, Json.beq a b = true ↔ a = b
  | .null, b => by cases b <;> simp [Json.beq]
  | .bool a, b => by cases b <;> simp [Json.beq]
  | .num a, b => by cases b <;> simp [Json.beq]
  | .str a, b => by cases b <;> simp [Json.beq]
  | .arr xs, b => by
    cases b <;> simp only [Json.beq, Bool.false_eq_true, false_iff] <;>
      try exact fun h => Json.noConfusion h
    rw [Json.beqList_iff]
    exact ⟨fun h => by rw [h], fun h => by injection h⟩
  | .obj xs, b => by
    cases b <;> simp only [Json.beq, Bool.false_eq_true, false_iff] <;>
      try exact fun h => Json.noConfusion h
    rw [Json.beqKvs_iff]
    exact ⟨fun h => by rw [h], fun h => by injection h⟩

theorem Json.beqList_iff : ∀ xs ys : List Json,
    Json.beqList xs ys = true ↔ xs = ys
  | [], ys => by cases ys <;> simp [Json.beqList]
  | x :: xs, ys => by
    cases ys with
    | nil => simp [Json.beqList]
    | cons y ys =>
      simp only [Json.beqList, Bool.and_eq_true, List.cons.injEq]
      rw [Json.beq_iff, Json.beqList_iff]

theorem Json.beqKvs_iff : ∀ xs ys : List (String × Json),
    Json.beqKvs xs ys = true ↔ xs = ys
  | [], ys => by cases ys <;> simp [Json.beqKvs]
  | (k, v) :: xs, ys => by
    cases ys with
    | nil => simp [Json.beqKvs]
    | cons y ys =>
      obtain ⟨k', v'⟩ := y
      simp only [Json.beqKvs, Bool.and_eq_true, List.cons.injEq,
        Prod.mk.injEq, beq_iff_eq]
      rw [Json.beq_iff, Json.beqKvs_iff]
end

instance : DecidableEq Json := fun a b =>
  decidable_of_iff (Json.beq a b = true) (Json.beq_iff a b)

instance {E A : Type} [DecidableEq E] [DecidableEq A] :
    DecidableEq (Except E A) := fun x y =>
  match x, y with
  | .ok a, .ok b =>
    if h : a = b then isTrue (by rw [h]) else isFalse (by simp [h])
  | .error a, .error b =>
    if h : a = b then isTrue (by rw [h]) else isFalse (by simp [h])
  | .ok _, .error _ => isFalse (by simp)
  | .error _, .ok _ => isFalse (by simp)

/-- Python error outcomes: `ESAAError(code)`, its subclass
`CorruptedStoreError(code)`, and builtin exceptions (KeyError etc.). -/
inductive Err where
  | esaa (code : String)
  | corrupted (code : String)
  | py (kind : String)
deriving DecidableEq

/-- First value bound to key `k` in an assoc list (Python dict lookup). -/
def lookupKey (kvs : List (String × Json)) (k : String) : Option Json :=
  match kvs with
  | [] => none
  | (k', v) :: rest => if k' = k then some v else lookupKey rest k

/-- `k in d` for a Python dict. -/
def hasKey (kvs : List (String × Json)) (k : String) : Bool :=
  (lookupKey kvs k).isSome

/-- `d[k] = v`: update in place if present, else append (insertion order). -/
def setKey (kvs : List (String × Json)) (k : String) (v : Json) :
    List (String × Json) :=
  match kvs with
  | [] => [(k, v)]
  | (k', v') :: rest =>
    if k' = k then (k', v) :: rest else (k', v') :: setKey rest k v

/-- `d.pop(k)`: remove the binding for `k`. -/
def delKey (kvs : List (String × Json)) (k : String) : List (String × Json) :=
  match kvs with
  | [] => []
  | (k', v') :: rest => if k' = k then rest else (k', v') :: delKey rest k

/-- `d.setdefault(k, v)`: insert `v` under `k` only when absent. -/
def pySetdefault (kvs : List (String × Json)) (k : String) (v : Json) :
    List (String × Json) :=
  if hasKey kvs k then kvs else kvs ++ [(k, v)]

/-- Python truthiness of a JSON value. -/
def Json.truthy : Json → Bool
  | .null => false
  | .bool b => b
  | .num n => n != 0
  | .str s => s ≠ ""
  | .arr xs => !xs.isEmpty
  | .obj kvs => !kvs.isEmpty

/-- `isinstance(x, int)` plus its value; Python `bool` is a subtype of `int`. -/
def pyInt? : Json → Option Int
  | .num n => some n
  | .bool b => some (if b then 1 else 0)
  | _ => none

/-- `d[k]` on an arbitrary value: KeyError when the key is absent,
TypeError when the value is not a dict. -/
def getItem (j : Json) (k : String) : Except Err Json :=
  match j with
  | .obj kvs =>
    match lookupKey kvs k with
    | some v => .ok v
    | none => .error (.py "KeyError")
  | _ => .error (.py "TypeError")

/-- `x.get(k)` on an arbitrary value: AttributeError when not a dict. -/
def pyGet (j : Json) (k : String) : Except Err (Option Json) :=
  match j with
  | .obj kvs => .ok (lookupKey kvs k)
  | _ => .error (.py "AttributeError")

/-- `x.get(k, d)` on an arbitrary value. -/
def pyGetD (j : Json) (k : String) (d : Json) : Except Err Json := do
  let v ← pyGet j k
  pure (v.getD d)

/-- `list(x)`: copy a list, split a string into characters, list the keys
of a dict; TypeError on non-iterables. -/
def pyList : Json → Except Err Json
  | .arr xs => .ok (.arr xs)
  | .str s => .ok (.arr (s.data.map fun c => .str (String.mk [c])))
  | .obj kvs => .ok (.arr (kvs.map fun kv => .str kv.1))
  | _ => .error (.py "TypeError")

/-- Whitespace stripped by Python `str.strip()` (ASCII portion). -/
def isPyWhitespace (c : Char) : Bool :=
  c = ' ' || c = '\t' || c = '\n' || c = '\r' || c = '\x0b' || c = '\x0c'

/-- `s.strip()` for ASCII whitespace. -/
def pyStrip (s : String) : String :=
  String.mk ((s.data.dropWhile isPyWhitespace).reverse.dropWhile
    isPyWhitespace |>.reverse)

/-- Quote a string the way Python `repr` does (basic escapes). -/
def pyQuote (s : String) : String :=
  "'" ++ String.mk (s.data.flatMap fun c =>
    if c = '\'' || c = '\\' then ['\\', c] else [c]) ++ "'"

mutual
/-- `str(x)` for scalars, with a recursive `repr`-style rendering for
containers (only ever applied to index keys). -/
def pyStr : Json → String
  | .null => "None"
  | .bool true => "True"
  | .bool false => "False"
  | .num n => toString n
  | .str s => s
  | .arr xs => "[" ++ pyReprList xs ++ "]"
  | .obj kvs => "\x7b" ++ pyReprKvs kvs ++ "\x7d"

/-- `repr(x)`: like `str` but strings are quoted. -/
def pyReprOne : Json → String
  | .null => "None"
  | .bool true => "True"
  | .bool false => "False"
  | .num n => toString n
  | .str s => pyQuote s
  | .arr xs => "[" ++ pyReprList xs ++ "]"
  | .obj kvs => "\x7b" ++ pyReprKvs kvs ++ "\x7d"

def pyReprList : List Json → String
  | [] => ""
  | [x] => pyReprOne x
  | x :: y :: xs => pyReprOne x ++ ", " ++ pyReprList (y :: xs)

def pyReprKvs : List (String × Json) → String
  | [] => ""
  | [(k, v)] => pyQuote k ++ ": " ++ pyReprOne v
  | (k, v) :: q :: kvs =>
    pyQuote k ++ ": " ++ pyReprOne v ++ ", " ++ pyReprKvs (q :: kvs)
end
end ESAA

namespace ESAA

/-- Insert a key-sorted entry (stable insertion sort step), matching
Python `sorted(..., key=lambda item: item[0])`. -/
def insertByKey {α : Type} (p : String × α) :
    List (String × α) → List (String × α)
  | [] => [p]
  | q :: rest => if q.1 < p.1 then q :: insertByKey p rest else p :: q :: rest

/-- Stable sort of dict items by key. -/
def sortByKey {α : Type} (kvs : List (String × α)) : List (String × α) :=
  match kvs with
  | [] => []
  | p :: rest => insertByKey p (sortByKey rest)

mutual
/-- Recursively sort every object's keys, as `json.dumps(sort_keys=True)`
serializes them. -/
def sortJson : Json → Json
  | .null => .null
  | .bool b => .bool b
  | .num n => .num n
  | .str s => .str s
  | .arr xs => .arr (sortJsonList xs)
  | .obj kvs => .obj (sortByKey (sortJsonKvs kvs))

def sortJsonList : List Json → List Json
  | [] => []
  | x :: xs => sortJson x :: sortJsonList xs

def sortJsonKvs : List (String × Json) → List (String × Json)
  | [] => []
  | (k, v) :: kvs => (k, sortJson v) :: sortJsonKvs kvs
end

/-- JSON string escaping as `json.dumps(ensure_ascii=False)` performs it. -/
def jsonEscapeChar (c : Char) : List Char :=
  if c = '"' then ['\\', '"']
  else if c = '\\' then ['\\', '\\']
  else if c = '\n' then ['\\', 'n']
  else if c = '\t' then ['\\', 't']
  else if c = '\r' then ['\\', 'r']
  else if c = '\x08' then ['\\', 'b']
  else if c = '\x0c' then ['\\', 'f']
  else if c.toNat < 0x20 then
    ['\\', 'u', '0', '0',
      (Nat.digitChar (c.toNat / 16)), (Nat.digitChar (c.toNat % 16))]
  else [c]

mutual
/-- `json.dumps(value, ensure_ascii=False, separators=(",", ":"))` on an
already key-sorted value. -/
def dumps : Json → String
  | .null => "null"
  | .bool true => "true"
  | .bool false => "false"
  | .num n => toString n
  | .str s => "\"" ++ String.mk (s.data.flatMap jsonEscapeChar) ++ "\""
  | .arr xs => "[" ++ dumpsList xs ++ "]"
  | .obj kvs => "\x7b" ++ dumpsKvs kvs ++ "\x7d"

def dumpsList : List Json → String
  | [] => ""
  | [x] => dumps x
  | x :: y :: xs => dumps x ++ "," ++ dumpsList (y :: xs)

def dumpsKvs : List (String × Json) → String
  | [] => ""
  | [(k, v)] => dumps (.str k) ++ ":" ++ dumps v
  | (k, v) :: q :: kvs =>
    dumps (.str k) ++ ":" ++ dumps v ++ "," ++ dumpsKvs (q :: kvs)
end

/-- UTF-8 encoding of one code point. -/
def utf8Bytes (c : Nat) : List Nat :=
  if c < 0x80 then [c]
  else if c < 0x800 then [0xC0 + c / 0x40, 0x80 + c % 0x40]
  else if c < 0x10000 then
    [0xE0 + c / 0x1000, 0x80 + (c / 0x40) % 0x40, 0x80 + c % 0x40]
  else
    [0xF0 + c / 0x40000, 0x80 + (c / 0x1000) % 0x40,
      0x80 + (c / 0x40) % 0x40, 0x80 + c % 0x40]

/-- `text.encode("utf-8")`. -/
def utf8Encode (s : String) : List Nat :=
  s.data.flatMap fun c => utf8Bytes c.toNat

/-- `canonical_json_bytes`: sorted-keys minimal-separator dump plus a
trailing newline, UTF-8 encoded (utils.py). -/
def canonical_json_bytes (value : Json) : List Nat :=
  utf8Encode (dumps (sortJson value) ++ "\n")

end ESAA

namespace ESAA.SHA256

def M32 : Nat := 2 ^ 32

def rotr (n x : Nat) : Nat :=
  ((x >>> n) ||| (x <<< (32 - n))) % M32

def bsig0 (x : Nat) : Nat := (rotr 2 x) ^^^ (rotr 13 x) ^^^ (rotr 22 x)
def bsig1 (x : Nat) : Nat := (rotr 6 x) ^^^ (rotr 11 x) ^^^ (rotr 25 x)
def ssig0 (x : Nat) : Nat := (rotr 7 x) ^^^ (rotr 18 x) ^^^ (x >>> 3)
def ssig1 (x : Nat) : Nat := (rotr 17 x) ^^^ (rotr 19 x) ^^^ (x >>> 10)

def K : List Nat :=
  [1116352408, 1899447441, 3049323471, 3921009573,
   961987163, 1508970993, 2453635748, 2870763221,
   3624381080, 310598401, 607225278, 1426881987,
   1925078388, 2162078206, 2614888103, 3248222580,
   3835390401, 4022224774, 264347078, 604807628,
   770255983, 1249150122, 1555081692, 1996064986,
   2554220882, 2821834349, 2952996808, 3210313671,
   3336571891, 3584528711, 113926993, 338241895,
   666307205, 773529912, 1294757372, 1396182291,
   1695183700, 1986661051, 2177026350, 2456956037,
   2730485921, 2820302411, 3259730800, 3345764771,
   3516065817, 3600352804, 4094571909, 275423344,
   430227734, 506948616, 659060556, 883997877,
   958139571, 1322822218, 1537002063, 1747873779,
   1955562222, 2024104815, 2227730452, 2361852424,
   2428436474, 2756734187, 3204031479, 3329325298]

def H0 : List Nat :=
  [1779033703, 3144134277, 1013904242, 2773480762,
   1359893119, 2600822924, 528734635, 1541459225]

/-- SHA-256 padding of a byte string. -/
def pad (msg : List Nat) : List Nat :=
  let L := msg.length
  msg ++ [0x80] ++ List.replicate ((119 - L % 64) % 64) 0 ++
    [(8 * L / 2 ^ 56) % 256, (8 * L / 2 ^ 48) % 256,
     (8 * L / 2 ^ 40) % 256, (8 * L / 2 ^ 32) % 256,
     (8 * L / 2 ^ 24) % 256, (8 * L / 2 ^ 16) % 256,
     (8 * L / 2 ^ 8) % 256, (8 * L) % 256]

/-- Big-endian 32-bit words from a list of bytes. -/
def toWords : List Nat → List Nat
  | b0 :: b1 :: b2 :: b3 :: rest =>
    (b0 * 2 ^ 24 + b1 * 2 ^ 16 + b2 * 2 ^ 8 + b3) :: toWords rest
  | _ => []

/-- Extend the message schedule; `acc` holds the words so far, reversed. -/
def sched (acc : List Nat) : Nat → List Nat
  | 0 => acc.reverse
  | n + 1 =>
    let w2 := acc.getD 1 0
    let w7 := acc.getD 6 0
    let w15 := acc.getD 14 0
    let w16 := acc.getD 15 0
    sched (((ssig1 w2 + w7 + ssig0 w15 + w16) % M32) :: acc) n

/-- One compression round on the eight working variables. -/
def round (s : List Nat) (k w : Nat) : List Nat :=
  match s with
  | [a, b, c, d, e, f, g, h] =>
    let ch := (e &&& f) ^^^ ((M32 - 1 - e) &&& g)
    let maj := (a &&& b) ^^^ (a &&& c) ^^^ (b &&& c)
    let t1 := (h + bsig1 e + ch + k + w) % M32
    let t2 := (bsig0 a + maj) % M32
    [(t1 + t2) % M32, a, b, c, (d + t1) % M32, e, f, g]
  | _ => s

/-- Process one 64-byte block. -/
def processBlock (h : List Nat) (block : List Nat) : List Nat :=
  let ws := sched (toWords block).reverse 48
  let s := (K.zip ws).foldl (fun s kw => round s kw.1 kw.2) h
  (h.zip s).map fun p => (p.1 + p.2) % M32

/-- Fold over consecutive 64-byte blocks (fuel-driven; the padded message
length is a multiple of 64 and bounded by its own length). -/
def blocksFold (h : List Nat) (bytes : List Nat) (fuel : Nat) : List Nat :=
  match fuel, bytes with
  | _, [] => h
  | 0, _ => h
  | fuel + 1, bs => blocksFold (processBlock h (bs.take 64)) (bs.drop 64) fuel

/-- SHA-256 digest (32 bytes) of a byte string. -/
def sha256 (msg : List Nat) : List Nat :=
  let padded := pad msg
  (blocksFold H0 padded padded.length).flatMap fun w =>
    [w / 2 ^ 24 % 256, w / 2 ^ 16 % 256, w / 2 ^ 8 % 256, w % 256]

def hexDigit (n : Nat) : Char :=
  if n < 10 then Char.ofNat (48 + n) else Char.ofNat (87 + n)

/-- Lowercase hex rendering of a byte string. -/
def toHex (bytes : List Nat) : String :=
  String.mk (bytes.flatMap fun b => [hexDigit (b / 16), hexDigit (b % 16)])

end ESAA.SHA256

namespace ESAA

/-- `sha256_hex` (utils.py): SHA-256 of the canonical JSON bytes, hex. -/
def sha256_hex (value : Json) : String :=
  SHA256.toHex (SHA256.sha256 (canonical_json_bytes value))

end ESAA

namespace ESAA

/-- `s.startswith(pfx)`. -/
def strStartsWith (s pfx : String) : Bool :=
  pfx.data.isPrefixOf s.data

/-- `s.split("/")` (Python `str.split` with an explicit separator). -/
def splitSlash (cs : List Char) (acc : List Char) : List String :=
  match cs with
  | [] => [String.mk acc.reverse]
  | c :: rest =>
    if c = '/' then String.mk acc.reverse :: splitSlash rest []
    else splitSlash rest (c :: acc)

/-- `normalize_rel_path` (utils.py): replace backslashes with `/`, then
`lstrip("./")` — which strips every leading `.` or `/` character. -/
def normalize_rel_path (path : String) : String :=
  String.mk (((path.data.map fun c => if c = '\\' then '/' else c).dropWhile
    fun c => c = '.' || c = '/'))

/-- `PurePosixPath(s).parts` for a relative path: slash-separated
components with empty and `.` components dropped. -/
def posixParts (s : String) : List String :=
  (splitSlash s.data []).filter fun p => p ≠ "" && p ≠ "."

/-- `_validate_safe_path` (validator.py). -/
def _validate_safe_path (path : String) : Except Err String :=
  let norm := normalize_rel_path path
  if norm = "" || strStartsWith norm "/" || strStartsWith norm ".." then
    .error (.esaa "BOUNDARY_VIOLATION")
  else if (posixParts norm).any fun part => part = ".." then
    .error (.esaa "BOUNDARY_VIOLATION")
  else .ok norm

/-- `normalize_legacy_event` (compat.py): rename `data` to `payload` when
`payload` is absent, rewrite `run.init` to `run.start` with a defaulted
`payload.status`, and default `schema_version`; TypeError when the raw
line is not a JSON object. -/
def normalize_legacy_event (raw : Json) : Except Err Json := do
  match raw with
  | .obj kvs0 => do
    let kvs1 :=
      if ¬ hasKey kvs0 "payload" ∧ hasKey kvs0 "data" then
        setKey (delKey kvs0 "data") "payload"
          ((lookupKey kvs0 "data").getD .null)
      else if hasKey kvs0 "data" then delKey kvs0 "data"
      else kvs0
    let kvs2 ←
      if lookupKey kvs1 "action" = some (.str "run.init") then do
        let kvs := setKey kvs1 "action" (.str "run.start")
        let kvs := pySetdefault kvs "payload" (.obj [])
        match lookupKey kvs "payload" with
        | some (.obj pkvs) =>
          pure (setKey kvs "payload"
            (.obj (pySetdefault pkvs "status" (.str "initialized"))))
        | some _ => throw (.py "AttributeError")
        | none => throw (.py "AttributeError")
      else pure kvs1
    pure (.obj (pySetdefault kvs2 "schema_version" (.str "0.3.0")))
  | _ => throw (.py "TypeError")

/-- `normalize_legacy_verify_status` (compat.py). -/
def normalize_legacy_verify_status (status : Json) : Json :=
  if status = .str "fail" then .str "mismatch" else status

/-- The canonical action vocabulary (constants.py `CANONICAL_ACTIONS`). -/
def CANONICAL_ACTIONS : List String :=
  ["run.start", "run.end", "task.create", "claim", "complete", "review",
   "issue.report", "hotfix.create", "issue.resolve", "output.rejected",
   "orchestrator.file.write", "orchestrator.view.mutate", "verify.start",
   "verify.ok", "verify.fail"]

def SCHEMA_VERSION : String := "0.4.0"
def ESAA_VERSION : String := "0.4.x"

/-- An event as `parse_event_store` returns it: the required fields are
present and `action` is a known canonical action string. -/
structure Event where
  schema_version : Json
  event_id : Json
  event_seq : Int
  ts : Json
  actor : Json
  action : String
  payload : Json
deriving DecidableEq

/-- `f"LEGACY-EV-{seq:08d}"`: zero-pad to eight characters. -/
def legacyEventId (seq : Int) : String :=
  let s := toString seq.natAbs
  let pads := fun w => String.mk (List.replicate (w - s.length) '0')
  if seq < 0 then "LEGACY-EV--" ++ pads 7 ++ s
  else "LEGACY-EV-" ++ pads 8 ++ s

/-- One iteration of the `parse_event_store` loop: normalize the raw
line, check `event_seq`, default `event_id`, check duplicates, required
fields and the action vocabulary; returns the parsed event together with
the updated `seen_ids` and `last_seq`. -/
def parseStep (raw : Json) (seen : List Json) (last_seq : Int) :
    Except Err (Event × List Json × Int) := do
  let ev ← normalize_legacy_event raw
  let kvs ← match ev with
    | .obj kvs => pure kvs
    | _ => throw (.py "TypeError")
  let seq ← match (lookupKey kvs "event_seq").bind pyInt? with
    | some n => pure n
    | none => throw (.corrupted "EVENT_SEQ_INVALID")
  if seq ≠ last_seq + 1 then
    throw (.corrupted "EVENT_SEQ_NON_MONOTONIC")
  let kvs := if hasKey kvs "event_id" then kvs
    else setKey kvs "event_id" (.str (legacyEventId seq))
  let event_id := (lookupKey kvs "event_id").getD .null
  if seen.contains event_id then
    throw (.corrupted "EVENT_ID_DUPLICATE")
  let required := ["schema_version", "event_id", "event_seq", "ts",
    "actor", "action", "payload"]
  if required.any fun k => ¬ hasKey kvs k then
    throw (.corrupted "EVENT_MISSING_FIELDS")
  let action ← match lookupKey kvs "action" with
    | some (.str a) =>
      if a ∈ CANONICAL_ACTIONS then pure a
      else throw (.corrupted "UNKNOWN_ACTION")
    | _ => throw (.corrupted "UNKNOWN_ACTION")
  let e : Event :=
    { schema_version := (lookupKey kvs "schema_version").getD .null
      event_id := event_id
      event_seq := seq
      ts := (lookupKey kvs "ts").getD .null
      actor := (lookupKey kvs "actor").getD .null
      action := action
      payload := (lookupKey kvs "payload").getD .null }
  pure (e, event_id :: seen, seq)

/-- The `parse_event_store` loop over the remaining lines. -/
def parseAux : List Json → List Json → Int →
    Except Err (List Event × List Json × Int)
  | [], seen, last_seq => .ok ([], seen, last_seq)
  | raw :: rest, seen, last_seq => do
    let (e, seen1, last1) ← parseStep raw seen last_seq
    let (es, seen', last') ← parseAux rest seen1 last1
    pure (e :: es, seen', last')

/-- `parse_event_store` (store.py) over already-JSON-decoded non-blank
lines. -/
def parse_event_store (lines : List Json) : Except Err (List Event) :=
  (parseAux lines [] 0).map fun r => r.1

end ESAA

namespace ESAA

/-- A task record as the projector builds it (`_new_task` plus the fields
that `claim`/`complete`/`review` add later); `none` means the dict key is
absent. -/
structure Task where
  task_id : Json
  task_kind : Json
  title : Json
  description : Json
  status : String
  depends_on : Json
  targets : Json
  outputs : Json
  is_hotfix : Bool := false
  issue_id : Option Json := none
  fixes : Option Json := none
  scope_patch : Option Json := none
  required_verification : Option Json := none
  baseline_id : Option Json := none
  assigned_to : Option Json := none
  started_at : Option Json := none
  verification : Option Json := none
  completed_at : Option Json := none
deriving DecidableEq

/-- `isinstance(x, str) and x.strip()` — a non-blank string. -/
def pyNonBlankStr : Json → Bool
  | .str s => pyStrip s ≠ ""
  | _ => false

/-- `_new_task` (projector.py). -/
def _new_task (payload : Json) : Except Err Task := do
  let title ← getItem payload "title"
  let description0 := (← pyGet payload "description").getD title
  let description := if pyNonBlankStr description0 then description0 else title
  let task_id ← getItem payload "task_id"
  let task_kind ← getItem payload "task_kind"
  let depends_on ← pyList ((← pyGet payload "depends_on").getD (.arr []))
  let targets ← pyList ((← pyGet payload "targets").getD (.arr []))
  let outputs := (← pyGet payload "outputs").getD (.obj [("files", .arr [])])
  let task : Task :=
    { task_id, task_kind, title, description, status := "todo",
      depends_on, targets, outputs }
  if ((← pyGet payload "is_hotfix").getD .null).truthy then
    pure { task with
      is_hotfix := true
      issue_id := (← pyGet payload "issue_id")
      fixes := (← pyGet payload "fixes")
      scope_patch := (← pyGet payload "scope_patch")
      required_verification := (← pyGet payload "required_verification")
      baseline_id := (← pyGet payload "baseline_id") }
  else
    pure task

/-- One step of building the `out` dict in `_index_counts`. -/
def bumpCount (out : List (String × Nat)) (k : String) : List (String × Nat) :=
  match out with
  | [] => [(k, 1)]
  | (k', n) :: rest =>
    if k' = k then (k', n + 1) :: rest else (k', n) :: bumpCount rest k

/-- `_index_counts` (projector.py): count tasks by a key, sorted. -/
def _index_counts (tasks : List Task) (key : Task → Json) :
    List (String × Nat) :=
  sortByKey (tasks.foldl (fun out t => bumpCount out (pyStr (key t))) [])

structure IssueLinks where
  reported_by_task_id : Json
  fixes_task_id : Json
  hotfix_task_id : Json
deriving DecidableEq

structure IssueTimeline where
  created_event_seq : Int
  resolved_event_seq : Option Int
deriving DecidableEq

/-- An issue record as `_apply_issue_report` builds it. -/
structure Issue where
  issue_id : Json
  status : String
  severity : Json
  title : Json
  baseline_id : Json
  affected : Json
  evidence : Json
  resolution : Json
  links : IssueLinks
  timeline : IssueTimeline
deriving DecidableEq

/-- A lesson record extracted by `_apply_issue_report`. -/
structure Lesson where
  lesson_id : String
  status : String
  created_at : Json
  title : Json
  mistake : Json
  rule : Json
  scope : Json
  enforcement : Json
  source_refs : Json
deriving DecidableEq

structure RunMeta where
  run_id : Json := .null
  status : Json := .str "initialized"
  last_event_seq : Int := 0
  projection_hash_sha256 : String := ""
  verify_status : Json := .str "unknown"
deriving DecidableEq

structure Meta where
  schema_version : String := SCHEMA_VERSION
  esaa_version : String := ESAA_VERSION
  immutable_done : Bool := true
  master_correlation_id : Json := .null
  run : RunMeta := {}
  updated_at : Json
deriving DecidableEq

structure Project where
  name : String
  audit_scope : String := ".roadmap/"
deriving DecidableEq

structure Indexes where
  by_status : List (String × Nat) := []
  by_kind : List (String × Nat) := []
deriving DecidableEq

/-- The projector's working state (`_empty_state`'s dict). `issues` is the
`_issues` dict (insertion-ordered), `lessons` the `_lessons` list. -/
structure State where
  meta : Meta
  project : Project
  tasks : List Task := []
  indexes : Indexes := {}
  issues : List (Json × Issue) := []
  lessons : List Lesson := []
deriving DecidableEq

/-- `_empty_state` (projector.py); `now` stands for `utc_now_iso()`. -/
def _empty_state (project_name : String) (now : String) : State :=
  { meta := { updated_at := .str now }, project := { name := project_name } }

/-- `_task_by_id`'s search: first task whose `task_id` equals `tid`. -/
def taskById : List Task → Json → Option Task
  | [], _ => none
  | t :: rest, tid => if t.task_id = tid then some t else taskById rest tid

/-- Look up, check and mutate the first task with the given id — the
`_task_by_id` + in-place mutation pattern of the claim/complete/review
handlers. -/
def modifyFirstTask (tasks : List Task) (tid : Json)
    (f : Task → Except Err Task) : Except Err (List Task) :=
  match tasks with
  | [] => .error (.esaa "TASK_NOT_FOUND")
  | t :: rest =>
    if t.task_id = tid then do
      pure ((← f t) :: rest)
    else do
      pure (t :: (← modifyFirstTask rest tid f))

/-- `_ensure_owner` (projector.py). -/
def _ensure_owner (task : Task) (actor : Json) : Except Err Unit :=
  if task.assigned_to.getD .null ≠ actor then
    .error (.esaa "NOT_LOCK_OWNER")
  else .ok ()

/-- `_apply_claim` (projector.py). -/
def _apply_claim (state : State) (event : Event) : Except Err State := do
  let tid ← getItem event.payload "task_id"
  let tasks ← modifyFirstTask state.tasks tid fun task => do
    if task.status = "done" then
      throw (.esaa "IMMUTABLE_DONE")
    if task.status = "in_progress" ∨ task.status = "review"
        ∨ (task.assigned_to.getD .null).truthy then
      throw (.esaa "LOCKED_TASK")
    pure { task with
      status := "in_progress",
      assigned_to := some event.actor,
      started_at := some event.ts }
  pure { state with tasks }

/-- `_apply_complete` (projector.py). -/
def _apply_complete (state : State) (event : Event) : Except Err State := do
  let tid ← getItem event.payload "task_id"
  let tasks ← modifyFirstTask state.tasks tid fun task => do
    if task.status = "done" then
      throw (.esaa "IMMUTABLE_DONE")
    if task.status ≠ "in_progress" then
      throw (.esaa "INVALID_TRANSITION")
    _ensure_owner task event.actor
    let task := { task with status := "review" }
    let verification ← pyGet event.payload "verification"
    let task := if (verification.getD .null).truthy then
      { task with verification } else task
    let issue_id ← pyGet event.payload "issue_id"
    let task := match issue_id with
      | some v => { task with issue_id := some v }
      | none => task
    let fixes ← pyGet event.payload "fixes"
    let task := match fixes with
      | some v => { task with fixes := some v }
      | none => task
    pure task
  pure { state with tasks }

/-- `_apply_review` (projector.py). -/
def _apply_review (state : State) (event : Event) : Except Err State := do
  let tid ← getItem event.payload "task_id"
  let tasks ← modifyFirstTask state.tasks tid fun task => do
    let decision := (← pyGet event.payload "decision").getD .null
    if task.status = "done" then
      throw (.esaa "IMMUTABLE_DONE")
    if task.status ≠ "review" then
      throw (.esaa "INVALID_TRANSITION")
    _ensure_owner task event.actor
    if decision = .str "approve" then
      pure { task with status := "done", completed_at := some event.ts }
    else if decision = .str "request_changes" then
      pure { task with status := "in_progress" }
    else
      throw (.esaa "INVALID_TRANSITION")
  pure { state with tasks }

/-- First issue stored under a key in the `_issues` dict. -/
def findIssue : List (Json × Issue) → Json → Option Issue
  | [], _ => none
  | (k, iss) :: rest, key => if k = key then some iss else findIssue rest key

/-- Update the issue stored under a key, in place. -/
def setIssue (issues : List (Json × Issue)) (key : Json) (iss : Issue) :
    List (Json × Issue) :=
  match issues with
  | [] => [(key, iss)]
  | (k, i0) :: rest =>
    if k = key then (k, iss) :: rest else (k, i0) :: setIssue rest key iss

/-- `f"LES-{n:04d}"`. -/
def lessonId (n : Nat) : String :=
  let s := toString n
  "LES-" ++ String.mk (List.replicate (4 - s.length) '0') ++ s

/-- `_apply_issue_report` (projector.py). The dict literal passed to
`setdefault` is evaluated unconditionally, so its lookups run (and can
fail) even when the issue already exists. -/
def _apply_issue_report (state : State) (event : Event) :
    Except Err State := do
  let issue_id ← getItem event.payload "issue_id"
  let severityD := (← pyGet event.payload "severity").getD (.str "medium")
  let titleD := (← pyGet event.payload "title").getD issue_id
  let affected0 := (← pyGet event.payload "affected").getD (.obj [])
  let baselineD := (← pyGet affected0 "baseline_id").getD .null
  let evidenceD := (← pyGet event.payload "evidence").getD (.obj [])
  let reportedByD := (← pyGet event.payload "task_id").getD .null
  let fixesD := (← pyGet event.payload "fixes").getD .null
  let defaultIssue : Issue :=
    { issue_id, status := "open", severity := severityD, title := titleD,
      baseline_id := baselineD, affected := affected0,
      evidence := evidenceD, resolution := .null,
      links :=
        { reported_by_task_id := reportedByD, fixes_task_id := fixesD,
          hotfix_task_id := .null },
      timeline :=
        { created_event_seq := event.event_seq,
          resolved_event_seq := none } }
  let (issues0, issue) :=
    match findIssue state.issues issue_id with
    | some iss => (state.issues, iss)
    | none => (state.issues ++ [(issue_id, defaultIssue)], defaultIssue)
  let issue := { issue with
    status := "open"
    severity := (← pyGet event.payload "severity").getD issue.severity
    title := (← pyGet event.payload "title").getD issue.title
    evidence := (← pyGet event.payload "evidence").getD issue.evidence }
  let state := { state with issues := setIssue issues0 issue_id issue }
  if (← pyGet event.payload "category").getD .null = .str "process" ∧
      (← pyGet event.payload "subtype").getD .null = .str "lesson" ∧
      hasKey (← match event.payload with
        | .obj kvs => pure kvs
        | _ => throw (.py "TypeError")) "lesson" then do
    let lesson0 ← getItem event.payload "lesson"
    let lesson_id := lessonId (state.lessons.length + 1)
    let titleL := (← pyGet event.payload "title").getD (.str lesson_id)
    let mistake ← getItem lesson0 "mistake"
    let rule ← getItem lesson0 "rule"
    let scope ← getItem lesson0 "scope"
    let enforcement ← getItem lesson0 "enforcement"
    let lesson : Lesson :=
      { lesson_id, status := "active", created_at := event.ts,
        title := titleL, mistake, rule, scope, enforcement,
        source_refs := .arr [.obj [
          ("task_id", (← pyGet event.payload "task_id").getD .null),
          ("event_id", event.event_id)]] }
    pure { state with lessons := state.lessons ++ [lesson] }
  else
    pure state

/-- `_apply_hotfix_create` (projector.py). -/
def _apply_hotfix_create (state : State) (event : Event) :
    Except Err State := do
  let task_id ← getItem event.payload "task_id"
  if state.tasks.any fun t => t.task_id = task_id then
    throw (.esaa "DUPLICATE_TASK")
  let nt ← _new_task event.payload
  let state := { state with tasks := state.tasks ++ [nt] }
  let issue_id := (← pyGet event.payload "issue_id").getD .null
  match findIssue state.issues issue_id with
  | some iss =>
    if issue_id.truthy then
      pure { state with
        issues := setIssue state.issues issue_id
          { iss with
            links := { iss.links with hotfix_task_id := task_id } } }
    else
      pure state
  | none => pure state

/-- `_apply_issue_resolve` (projector.py). -/
def _apply_issue_resolve (state : State) (event : Event) :
    Except Err State := do
  let issue_id ← getItem event.payload "issue_id"
  match findIssue state.issues issue_id with
  | none => throw (.esaa "ISSUE_NOT_FOUND")
  | some issue => do
    let resolution := (← pyGet event.payload "resolution").getD (.obj [])
    pure { state with
      issues := setIssue state.issues issue_id
        { issue with
          status := "resolved", resolution,
          timeline :=
            { issue.timeline with
              resolved_event_seq := some event.event_seq } } }

/-- The action dispatch of `_apply_event` (projector.py), before the
trailing `last_event_seq`/`updated_at` stamping. -/
def _apply_action (state : State) (event : Event) : Except Err State := do
  if event.action = "run.start" then do
      let mcid := (← pyGet event.payload "master_correlation_id").getD .null
      let run_id := (← pyGet event.payload "run_id").getD state.meta.run.run_id
      let status := (← pyGet event.payload "status").getD (.str "initialized")
      pure { state with meta := { state.meta with
        master_correlation_id := mcid,
        run := { state.meta.run with run_id, status } } }
    else if event.action = "run.end" then do
      let status := (← pyGet event.payload "status").getD (.str "success")
      pure { state with meta.run.status := status }
    else if event.action = "task.create" then do
      let nt ← _new_task event.payload
      pure { state with tasks := state.tasks ++ [nt] }
    else if event.action = "claim" then _apply_claim state event
    else if event.action = "complete" then _apply_complete state event
    else if event.action = "review" then _apply_review state event
    else if event.action = "issue.report" then _apply_issue_report state event
    else if event.action = "hotfix.create" then _apply_hotfix_create state event
    else if event.action = "issue.resolve" then _apply_issue_resolve state event
    else if event.action = "verify.ok" then
      pure { state with meta.run.verify_status := .str "ok" }
    else if event.action = "verify.fail" then do
      let vs := (← pyGet event.payload "verify_status").getD (.str "mismatch")
      pure { state with meta.run.verify_status := vs }
    else if event.action = "output.rejected" ∨ event.action = "orchestrator.file.write"
        ∨ event.action = "orchestrator.view.mutate" ∨ event.action = "verify.start" then
      pure state
    else
      throw (.esaa "UNKNOWN_ACTION")

/-- `_apply_event` (projector.py): dispatch on the action, then stamp
`last_event_seq` and `updated_at`. -/
def _apply_event (state : State) (event : Event) : Except Err State := do
  let state' ← _apply_action state event
  pure { state' with
    meta := { state'.meta with
      run := { state'.meta.run with last_event_seq := event.event_seq },
      updated_at := event.ts } }

/-- Fold the events into a state and fill the indexes (the first half of
`materialize`). -/
def materializeState (events : List Event) (now : String)
    (project_name : String := "esaa-core") : Except Err State := do
  let state ← events.foldlM _apply_event (_empty_state project_name now)
  pure { state with indexes := {
    by_status := _index_counts state.tasks fun t => .str t.status,
    by_kind := _index_counts state.tasks fun t => t.task_kind } }

/-- The roadmap view `materialize` returns. -/
structure Roadmap where
  meta : Meta
  project : Project
  tasks : List Task
  indexes : Indexes
deriving DecidableEq

/-- Serialize an optional dict entry. -/
def optField (k : String) : Option Json → List (String × Json)
  | none => []
  | some v => [(k, v)]

/-- The task dict as it is serialized into the roadmap. -/
def taskToJson (t : Task) : Json :=
  .obj ([("task_id", t.task_id), ("task_kind", t.task_kind),
    ("title", t.title), ("description", t.description),
    ("status", .str t.status), ("depends_on", t.depends_on),
    ("targets", t.targets), ("outputs", t.outputs),
    ("immutability", .obj [("done_is_immutable", .bool true)])]
    ++ (if t.is_hotfix then [("is_hotfix", .bool true)] else [])
    ++ optField "issue_id" t.issue_id
    ++ optField "fixes" t.fixes
    ++ optField "scope_patch" t.scope_patch
    ++ optField "required_verification" t.required_verification
    ++ optField "baseline_id" t.baseline_id
    ++ optField "assigned_to" t.assigned_to
    ++ optField "started_at" t.started_at
    ++ optField "verification" t.verification
    ++ optField "completed_at" t.completed_at)

def countsToJson (cs : List (String × Nat)) : Json :=
  .obj (cs.map fun kv => (kv.1, .num (kv.2 : Int)))

def indexesToJson (ix : Indexes) : Json :=
  .obj [("by_status", countsToJson ix.by_status),
    ("by_kind", countsToJson ix.by_kind)]

def projectToJson (p : Project) : Json :=
  .obj [("name", .str p.name), ("audit_scope", .str p.audit_scope)]

/-- `compute_projection_hash` (projector.py): hash of the
`{schema_version, project, tasks, indexes}` substructure. -/
def compute_projection_hash (roadmap : Roadmap) : String :=
  sha256_hex (.obj [
    ("schema_version", .str roadmap.meta.schema_version),
    ("project", projectToJson roadmap.project),
    ("tasks", .arr (roadmap.tasks.map taskToJson)),
    ("indexes", indexesToJson roadmap.indexes)])

/-- `materialize` (projector.py), restricted to the roadmap view the
claims are about; `now` stands for `utc_now_iso()` at `_empty_state`. -/
def materialize (events : List Event) (now : String)
    (project_name : String := "esaa-core") : Except Err Roadmap := do
  let state ← materializeState events now project_name
  let roadmap : Roadmap :=
    { meta := state.meta, project := state.project,
      tasks := state.tasks, indexes := state.indexes }
  let roadmap := { roadmap with meta.run.verify_status :=
    normalize_legacy_verify_status roadmap.meta.run.verify_status }
  pure { roadmap with meta.run.projection_hash_sha256 :=
    compute_projection_hash roadmap }

/-- `until.isdigit()`. -/
def strIsDigit (s : String) : Bool :=
  s ≠ "" && s.data.all Char.isDigit

/-- `int(until)` for a digit string. -/
def strToNat (s : String) : Nat :=
  s.data.foldl (fun a c => a * 10 + (c.toNat - 48)) 0

/-- The event-id branch of replay's selection: keep events up to and
including the first whose `event_id` equals `until`. -/
def takeUntilId (events : List Event) (untilId : String) : List Event :=
  match events with
  | [] => []
  | e :: rest =>
    if e.event_id = .str untilId then [e] else e :: takeUntilId rest untilId

/-- The `selected` computation in `ESAAService.replay` (service.py). -/
def replaySelect (events : List Event) (untilArg : Option String) :
    List Event :=
  match untilArg with
  | none => events
  | some u =>
    if u = "" then events
    else if strIsDigit u then
      events.filter fun ev => ev.event_seq ≤ (strToNat u : Int)
    else takeUntilId events u

structure ReplayResult where
  events_replayed : Nat
  last_event_seq : Int
  projection_hash_sha256 : String
  verify_status : String
deriving DecidableEq

/-- `ESAAService.replay` (service.py) without the view writing: parse the
store, select, materialize, and report. -/
def replay (lines : List Json) (untilArg : Option String) (now : String) :
    Except Err ReplayResult := do
  let events ← parse_event_store lines
  let selected := replaySelect events untilArg
  let roadmap ← materialize selected now
  pure
    { events_replayed := selected.length,
      last_event_seq := roadmap.meta.run.last_event_seq,
      projection_hash_sha256 := roadmap.meta.run.projection_hash_sha256,
      verify_status := "ok" }

end ESAA

namespace ESAA

/-! ### Generic lemmas about the embedding -/

@[simp] theorem ok_bind {E A B : Type} (a : A) (f : A → Except E B) :
    (Except.ok a : Except E A) >>= f = f a := rfl

@[simp] theorem error_bind {E A B : Type} (e : E) (f : A → Except E B) :
    (Except.error e : Except E A) >>= f = .error e := rfl

@[simp] theorem ok_map {E A B : Type} (a : A) (f : A → B) :
    (Except.ok a : Except E A).map f = .ok (f a) := rfl

@[simp] theorem error_map {E A B : Type} (e : E) (f : A → B) :
    (Except.error e : Except E A).map f = .error e := rfl

@[simp] theorem pure_eq_ok {E A : Type} (a : A) :
    (pure a : Except E A) = .ok a := rfl

@[simp] theorem Except.bind_ok_left {E A B : Type} (a : A)
    (f : A → Except E B) : Except.bind (.ok a) f = f a := rfl

@[simp] theorem Except.bind_error_left {E A B : Type} (e : E)
    (f : A → Except E B) : Except.bind (.error e) f = .error e := rfl

@[simp] theorem throw_eq_error {E A : Type} (e : E) :
    (throw e : Except E A) = .error e := rfl

theorem taskById_eq_none {tasks : List Task} {tid : Json}
    (h : ∀ u ∈ tasks, u.task_id ≠ tid) : taskById tasks tid = none := by
  induction tasks with
  | nil => rfl
  | cons t rest ih =>
    simp only [taskById]
    rw [if_neg (h t (by simp))]
    exact ih fun u hu => h u (by simp [hu])

theorem taskById_append_cons {l1 l2 : List Task} {t : Task} {tid : Json}
    (h1 : ∀ u ∈ l1, u.task_id ≠ tid) (ht : t.task_id = tid) :
    taskById (l1 ++ t :: l2) tid = some t := by
  induction l1 with
  | nil => simp [taskById, ht]
  | cons u rest ih =>
    simp only [List.cons_append, taskById]
    rw [if_neg (h1 u (by simp))]
    exact ih fun v hv => h1 v (by simp [hv])

/-- Successful `modifyFirstTask` splits the task list at the first match
and rewrites exactly that element through `f`. -/
theorem modifyFirstTask_ok {tasks : List Task} {tid : Json}
    {f : Task → Except Err Task} {ts' : List Task}
    (h : modifyFirstTask tasks tid f = .ok ts') :
    ∃ (l1 : List Task) (t t' : Task) (l2 : List Task),
      tasks = l1 ++ t :: l2 ∧ ts' = l1 ++ t' :: l2 ∧
      (∀ u ∈ l1, u.task_id ≠ tid) ∧ t.task_id = tid ∧ f t = .ok t' := by
  induction tasks generalizing ts' with
  | nil => simp [modifyFirstTask] at h
  | cons t rest ih =>
    by_cases hid : t.task_id = tid
    · simp only [modifyFirstTask, if_pos hid] at h
      cases hf : f t with
      | error err => rw [hf] at h; simp at h
      | ok t' =>
        rw [hf] at h
        simp only [ok_bind, pure_eq_ok, Except.ok.injEq] at h
        exact ⟨[], t, t', rest, by simp, by simp [h], by simp, hid, hf⟩
    · simp only [modifyFirstTask, if_neg hid] at h
      cases hm : modifyFirstTask rest tid f with
      | error err => rw [hm] at h; simp at h
      | ok rest' =>
        rw [hm] at h
        simp only [ok_bind, pure_eq_ok, Except.ok.injEq] at h
        obtain ⟨l1, u, u', l2, hrest, hrest', hl1, hu, hfu⟩ := ih hm
        exact ⟨t :: l1, u, u', l2, by simp [hrest],
          by simp [← h, hrest'], by
            intro v hv
            rcases List.mem_cons.mp hv with h1 | h2
            · exact h1 ▸ hid
            · exact hl1 v h2, hu, hfu⟩

/-- When the first matching task is known and `f` rejects it,
`modifyFirstTask` propagates exactly that error. -/
theorem modifyFirstTask_error {tasks : List Task} {tid : Json} {t : Task}
    {f : Task → Except Err Task} {err : Err}
    (h : taskById tasks tid = some t) (hf : f t = .error err) :
    modifyFirstTask tasks tid f = .error err := by
  induction tasks with
  | nil => simp [taskById] at h
  | cons u rest ih =>
    by_cases hid : u.task_id = tid
    · simp only [taskById, if_pos hid, Option.some.injEq] at h
      subst h
      simp only [modifyFirstTask, if_pos hid, hf, error_bind]
    · simp only [taskById, if_neg hid] at h
      simp only [modifyFirstTask, if_neg hid, ih h, error_bind]

end ESAA

namespace ESAA

theorem getItem_ok_obj {j : Json} {k : String} {v : Json}
    (h : getItem j k = .ok v) :
    ∃ kvs, j = .obj kvs ∧ lookupKey kvs k = some v := by
  cases j <;> simp [getItem] at h
  case obj kvs =>
    cases hk : lookupKey kvs k <;> rw [hk] at h <;> simp at h
    exact ⟨kvs, rfl, by rw [hk, h]⟩

theorem pyGet_obj {kvs : List (String × Json)} {k : String} :
    pyGet (.obj kvs) k = .ok (lookupKey kvs k) := rfl

/-- A claim on a task that resolves to a `done` record raises
`IMMUTABLE_DONE`. -/
theorem _apply_claim_done {s : State} {e : Event} {tid : Json} {t : Task}
    (hp : getItem e.payload "task_id" = .ok tid)
    (ht : taskById s.tasks tid = some t) (hd : t.status = "done") :
    _apply_claim s e = .error (.esaa "IMMUTABLE_DONE") := by
  rw [_apply_claim, hp, ok_bind,
    modifyFirstTask_error ht (by rw [if_pos hd]; rfl), error_bind]

/-- A complete on a task that resolves to a `done` record raises
`IMMUTABLE_DONE`. -/
theorem _apply_complete_done {s : State} {e : Event} {tid : Json} {t : Task}
    (hp : getItem e.payload "task_id" = .ok tid)
    (ht : taskById s.tasks tid = some t) (hd : t.status = "done") :
    _apply_complete s e = .error (.esaa "IMMUTABLE_DONE") := by
  rw [_apply_complete, hp, ok_bind,
    modifyFirstTask_error ht (by rw [if_pos hd]; rfl), error_bind]

/-- A review on a task that resolves to a `done` record raises
`IMMUTABLE_DONE`. -/
theorem _apply_review_done {s : State} {e : Event} {tid : Json} {t : Task}
    (hp : getItem e.payload "task_id" = .ok tid)
    (ht : taskById s.tasks tid = some t) (hd : t.status = "done") :
    _apply_review s e = .error (.esaa "IMMUTABLE_DONE") := by
  obtain ⟨kvs, hobj, -⟩ := getItem_ok_obj hp
  rw [_apply_review, hp, ok_bind,
    modifyFirstTask_error ht (by rw [hobj, pyGet_obj, ok_bind, if_pos hd]; rfl),
    error_bind]

end ESAA


namespace ESAA

/-- Successful claims come from an unlocked, non-done task and set
exactly `status`, `assigned_to`, `started_at` on it. -/
theorem _apply_claim_ok {s : State} {e : Event} {s' : State}
    (h : _apply_claim s e = .ok s') :
    ∃ tid l1 t l2,
      getItem e.payload "task_id" = .ok tid ∧
      s.tasks = l1 ++ t :: l2 ∧ (∀ u ∈ l1, u.task_id ≠ tid) ∧
      t.task_id = tid ∧ t.status ≠ "done" ∧
      ¬(t.status = "in_progress" ∨ t.status = "review" ∨
        (t.assigned_to.getD .null).truthy = true) ∧
      s' = { s with
        tasks := l1 ++
          { t with
            status := "in_progress", assigned_to := some e.actor,
            started_at := some e.ts } :: l2 } := by
  cases hp : getItem e.payload "task_id" with
  | error err => rw [_apply_claim, hp] at h; simp at h
  | ok tid =>
    rw [_apply_claim, hp, ok_bind] at h
    cases hm : modifyFirstTask s.tasks tid _ with
    | error err => rw [hm] at h; simp at h
    | ok ts' =>
      rw [hm] at h
      simp only [ok_bind, pure_eq_ok, Except.ok.injEq] at h
      obtain ⟨l1, t, t', l2, hs, hts', hl1, hid, hf⟩ := modifyFirstTask_ok hm
      by_cases hd : t.status = "done"
      · simp [hd] at hf
      · by_cases hl : t.status = "in_progress" ∨ t.status = "review" ∨
            (t.assigned_to.getD .null).truthy = true
        · simp [hd, hl] at hf
        · simp only [if_neg hd, if_neg hl, ok_bind, pure_eq_ok,
            Except.ok.injEq] at hf
          exact ⟨tid, l1, t, l2, rfl, hs, hl1, hid, hd, hl,
            by rw [← h, hts', hf]⟩
end ESAA

namespace ESAA

/-- Successful completes come from an `in_progress` task owned by the
actor; the updated record keeps `task_id`, `assigned_to`, `started_at`
and moves to `review`. -/
theorem _apply_complete_ok {s : State} {e : Event} {s' : State}
    (h : _apply_complete s e = .ok s') :
    ∃ tid l1 t t' l2,
      getItem e.payload "task_id" = .ok tid ∧
      s.tasks = l1 ++ t :: l2 ∧ (∀ u ∈ l1, u.task_id ≠ tid) ∧
      t.task_id = tid ∧ t.status = "in_progress" ∧
      t.assigned_to.getD .null = e.actor ∧
      t'.task_id = t.task_id ∧ t'.status = "review" ∧
      t'.assigned_to = t.assigned_to ∧ t'.started_at = t.started_at ∧
      s' = { s with tasks := l1 ++ t' :: l2 } := by
  cases hp : getItem e.payload "task_id" with
  | error err => rw [_apply_complete, hp] at h; simp at h
  | ok tid =>
    obtain ⟨kvs, hobj, -⟩ := getItem_ok_obj hp
    rw [_apply_complete, hp, ok_bind] at h
    cases hm : modifyFirstTask s.tasks tid _ with
    | error err => rw [hm] at h; simp at h
    | ok ts' =>
      rw [hm] at h
      simp only [ok_bind, pure_eq_ok, Except.ok.injEq] at h
      obtain ⟨l1, t, t', l2, hs, hts', hl1, hid, hf⟩ := modifyFirstTask_ok hm
      by_cases hd : t.status = "done"
      · simp [hd] at hf
      · by_cases hip : t.status = "in_progress"
        · by_cases how : t.assigned_to.getD .null = e.actor
          · rw [hobj] at hf
            rw [if_neg hd] at hf
            try simp only [pure_eq_ok, ok_bind] at hf
            rw [if_neg (by simp [hip] : ¬ t.status ≠ "in_progress")] at hf
            try simp only [pure_eq_ok, ok_bind] at hf
            rw [_ensure_owner, if_neg (by simp [how])] at hf
            simp only [pyGet_obj, ok_bind, pure_eq_ok,
              Except.ok.injEq] at hf
            refine ⟨tid, l1, t, t', l2, rfl, hs, hl1, hid, hip, how,
              ?_, ?_, ?_, ?_, by rw [← h, hts']⟩ <;> rw [← hf] <;>
              repeat' (first | rfl | split)
          · rw [hobj] at hf
            rw [if_neg hd] at hf
            try simp only [pure_eq_ok, ok_bind] at hf
            rw [if_neg (by simp [hip] : ¬ t.status ≠ "in_progress")] at hf
            try simp only [pure_eq_ok, ok_bind] at hf
            rw [_ensure_owner, if_pos (by simp [how])] at hf
            simp at hf
        · rw [if_neg hd] at hf
          try simp only [pure_eq_ok, ok_bind] at hf
          rw [if_pos (by simp [hip] : t.status ≠ "in_progress")] at hf
          simp at hf
end ESAA

namespace ESAA

/-- Successful reviews come from a `review`-status task owned by the
actor; `approve` yields `done` with `completed_at` set, `request_changes`
yields `in_progress` with every other field unchanged. -/
theorem _apply_review_ok {s : State} {e : Event} {s' : State}
    (h : _apply_review s e = .ok s') :
    ∃ tid l1 t l2 od,
      getItem e.payload "task_id" = .ok tid ∧
      pyGet e.payload "decision" = .ok od ∧
      s.tasks = l1 ++ t :: l2 ∧ (∀ u ∈ l1, u.task_id ≠ tid) ∧
      t.task_id = tid ∧ t.status = "review" ∧
      t.assigned_to.getD .null = e.actor ∧
      ((od.getD .null = .str "approve" ∧
        s' = { s with
          tasks := l1 ++
            { t with status := "done", completed_at := some e.ts } :: l2 }) ∨
       (od.getD .null = .str "request_changes" ∧
        s' = { s with
          tasks := l1 ++ { t with status := "in_progress" } :: l2 })) := by
  cases hp : getItem e.payload "task_id" with
  | error err => rw [_apply_review, hp] at h; simp at h
  | ok tid =>
    obtain ⟨kvs, hobj, -⟩ := getItem_ok_obj hp
    rw [_apply_review, hp, ok_bind] at h
    cases hm : modifyFirstTask s.tasks tid _ with
    | error err => rw [hm] at h; simp at h
    | ok ts' =>
      rw [hm] at h
      simp only [ok_bind, pure_eq_ok, Except.ok.injEq] at h
      obtain ⟨l1, t, t', l2, hs, hts', hl1, hid, hf⟩ := modifyFirstTask_ok hm
      rw [hobj] at hf
      simp only [pyGet_obj, ok_bind] at hf
      by_cases hd : t.status = "done"
      · simp [hd] at hf
      · by_cases hrv : t.status = "review"
        · by_cases how : t.assigned_to.getD .null = e.actor
          · rw [if_neg hd] at hf
            try simp only [pure_eq_ok, ok_bind] at hf
            rw [if_neg (by simp [hrv] : ¬ t.status ≠ "review")] at hf
            try simp only [pure_eq_ok, ok_bind] at hf
            rw [_ensure_owner, if_neg (by simp [how])] at hf
            try simp only [pure_eq_ok, ok_bind] at hf
            by_cases ha : (lookupKey kvs "decision").getD .null =
                .str "approve"
            · rw [if_pos ha] at hf
              simp only [pure_eq_ok, Except.ok.injEq] at hf
              exact ⟨tid, l1, t, l2, lookupKey kvs "decision", rfl,
                by rw [hobj, pyGet_obj], hs, hl1, hid, hrv, how,
                Or.inl ⟨ha, by rw [← h, hts', ← hf]⟩⟩
            · rw [if_neg ha] at hf
              by_cases hr : (lookupKey kvs "decision").getD .null =
                  .str "request_changes"
              · rw [if_pos hr] at hf
                simp only [pure_eq_ok, Except.ok.injEq] at hf
                exact ⟨tid, l1, t, l2, lookupKey kvs "decision", rfl,
                  by rw [hobj, pyGet_obj], hs, hl1, hid, hrv, how,
                  Or.inr ⟨hr, by rw [← h, hts', ← hf]⟩⟩
              · rw [if_neg hr] at hf
                simp at hf
          · rw [if_neg hd] at hf
            try simp only [pure_eq_ok, ok_bind] at hf
            rw [if_neg (by simp [hrv] : ¬ t.status ≠ "review")] at hf
            try simp only [pure_eq_ok, ok_bind] at hf
            rw [_ensure_owner, if_pos (by simp [how])] at hf
            simp at hf
        · rw [if_neg hd] at hf
          try simp only [pure_eq_ok, ok_bind] at hf
          rw [if_pos (by simp [hrv] : t.status ≠ "review")] at hf
          simp at hf
end ESAA

namespace ESAA

/-- A claim on a locked (or already started) non-done task raises
`LOCKED_TASK`. -/
theorem _apply_claim_locked {s : State} {e : Event} {tid : Json} {t : Task}
    (hp : getItem e.payload "task_id" = .ok tid)
    (ht : taskById s.tasks tid = some t) (hd : t.status ≠ "done")
    (hl : t.status = "in_progress" ∨ t.status = "review" ∨
      (t.assigned_to.getD .null).truthy = true) :
    _apply_claim s e = .error (.esaa "LOCKED_TASK") := by
  rw [_apply_claim, hp, ok_bind,
    modifyFirstTask_error ht
      (by
        rw [if_neg hd]
        try simp only [pure_eq_ok, ok_bind]
        rw [if_pos hl]
        rfl),
    error_bind]

/-- A complete on an `in_progress` task not owned by the actor raises
`NOT_LOCK_OWNER`. -/
theorem _apply_complete_not_owner {s : State} {e : Event} {tid : Json}
    {t : Task}
    (hp : getItem e.payload "task_id" = .ok tid)
    (ht : taskById s.tasks tid = some t) (hip : t.status = "in_progress")
    (how : t.assigned_to.getD .null ≠ e.actor) :
    _apply_complete s e = .error (.esaa "NOT_LOCK_OWNER") := by
  rw [_apply_complete, hp, ok_bind,
    modifyFirstTask_error ht
      (by
        rw [if_neg (by simp [hip] : ¬ t.status = "done")]
        try simp only [pure_eq_ok, ok_bind]
        rw [if_neg (by simp [hip] : ¬ t.status ≠ "in_progress")]
        try simp only [pure_eq_ok, ok_bind]
        rw [_ensure_owner, if_pos (by simp [how])]
        rfl),
    error_bind]

/-- A review on a `review`-status task not owned by the actor raises
`NOT_LOCK_OWNER`. -/
theorem _apply_review_not_owner {s : State} {e : Event} {tid : Json}
    {t : Task}
    (hp : getItem e.payload "task_id" = .ok tid)
    (ht : taskById s.tasks tid = some t) (hrv : t.status = "review")
    (how : t.assigned_to.getD .null ≠ e.actor) :
    _apply_review s e = .error (.esaa "NOT_LOCK_OWNER") := by
  obtain ⟨kvs, hobj, -⟩ := getItem_ok_obj hp
  rw [_apply_review, hp, ok_bind,
    modifyFirstTask_error ht
      (by
        rw [hobj]
        simp only [pyGet_obj, ok_bind]
        rw [if_neg (by simp [hrv] : ¬ t.status = "done")]
        try simp only [pure_eq_ok, ok_bind]
        rw [if_neg (by simp [hrv] : ¬ t.status ≠ "review")]
        try simp only [pure_eq_ok, ok_bind]
        rw [_ensure_owner, if_pos (by simp [how])]
        rfl),
    error_bind]

end ESAA

namespace ESAA

/-- `issue.resolve` leaves tasks and meta untouched. -/
theorem _apply_issue_resolve_ok_frame {s : State} {e : Event} {s' : State}
    (h : _apply_issue_resolve s e = .ok s') :
    s'.tasks = s.tasks ∧ s'.meta = s.meta ∧ s'.project = s.project ∧
      s'.indexes = s.indexes := by
  unfold _apply_issue_resolve at h
  cases hp : getItem e.payload "issue_id" with
  | error err => rw [hp] at h; simp at h
  | ok iid =>
    obtain ⟨kvs, hobj, -⟩ := getItem_ok_obj hp
    rw [hp, ok_bind] at h
    cases hfi : findIssue s.issues iid with
    | none => rw [hfi] at h; simp at h
    | some issue =>
      rw [hfi, hobj] at h
      simp only [pyGet_obj, ok_bind, pure_eq_ok, Except.ok.injEq] at h
      rw [← h]
      exact ⟨rfl, rfl, rfl, rfl⟩

/-- Successful `hotfix.create` appends one new task and leaves meta
untouched. -/
theorem _apply_hotfix_create_ok_frame {s : State} {e : Event} {s' : State}
    (h : _apply_hotfix_create s e = .ok s') :
    (∃ nt, s'.tasks = s.tasks ++ [nt]) ∧ s'.meta = s.meta ∧
      s'.project = s.project ∧ s'.indexes = s.indexes := by
  unfold _apply_hotfix_create at h
  cases hp : getItem e.payload "task_id" with
  | error err => rw [hp] at h; simp at h
  | ok tid =>
    obtain ⟨kvs, hobj, -⟩ := getItem_ok_obj hp
    rw [hp, ok_bind] at h
    by_cases hdup : (s.tasks.any fun t => t.task_id = tid) = true
    · rw [if_pos hdup] at h; simp at h
    · rw [if_neg hdup] at h
      try simp only [pure_eq_ok, ok_bind] at h
      cases hnt : _new_task e.payload with
      | error err => rw [hnt] at h; simp at h
      | ok nt =>
        rw [hnt, hobj] at h
        simp only [ok_bind, pyGet_obj] at h
        cases hfi : findIssue s.issues ((lookupKey kvs "issue_id").getD .null)
          with
        | none =>
          rw [hfi] at h
          simp only [pure_eq_ok, Except.ok.injEq] at h
          rw [← h]
          exact ⟨⟨nt, rfl⟩, rfl, rfl, rfl⟩
        | some iss =>
          rw [hfi] at h
          by_cases htr : ((lookupKey kvs "issue_id").getD .null).truthy = true
          · simp only [htr, if_true, pure_eq_ok, Except.ok.injEq] at h
            rw [← h]
            exact ⟨⟨nt, rfl⟩, rfl, rfl, rfl⟩
          · simp only [htr, if_false, pure_eq_ok, Except.ok.injEq,
              Bool.false_eq_true, ite_false] at h
            rw [← h]
            exact ⟨⟨nt, rfl⟩, rfl, rfl, rfl⟩

end ESAA

namespace ESAA

/-- Successful `issue.report` leaves tasks, meta, project and indexes
untouched; when the issue already exists, it is reopened with severity,
title and evidence recopied — `affected`, `baseline_id`, links and
timeline keep their original values. -/
theorem _apply_issue_report_ok_spec {s : State} {e : Event} {s' : State}
    (h : _apply_issue_report s e = .ok s') :
    ∃ kvs iid, e.payload = .obj kvs ∧ lookupKey kvs "issue_id" = some iid ∧
      s'.tasks = s.tasks ∧ s'.meta = s.meta ∧ s'.project = s.project ∧
      s'.indexes = s.indexes ∧
      ∀ issue, findIssue s.issues iid = some issue →
        s'.issues = setIssue s.issues iid
          { issue with
            status := "open",
            severity := (lookupKey kvs "severity").getD issue.severity,
            title := (lookupKey kvs "title").getD issue.title,
            evidence := (lookupKey kvs "evidence").getD issue.evidence } := by
  unfold _apply_issue_report at h
  cases hp : getItem e.payload "issue_id" with
  | error err => rw [hp] at h; simp at h
  | ok iid =>
    obtain ⟨kvs, hobj, hlk⟩ := getItem_ok_obj hp
    rw [hp, hobj] at h
    simp only [pyGet_obj, ok_bind] at h
    cases hbl : pyGet ((lookupKey kvs "affected").getD (.obj []))
        "baseline_id" with
    | error err => rw [hbl] at h; simp at h
    | ok bl =>
      rw [hbl] at h
      simp only [ok_bind, pure_eq_ok] at h
      cases hfi : findIssue s.issues iid with
      | some issue0 =>
        rw [hfi] at h
        simp only [ok_bind, pure_eq_ok] at h
        split at h
        · cases hles : getItem (Json.obj kvs) "lesson" with
          | error err => rw [hles] at h; simp at h
          | ok lesson0 =>
            rw [hles] at h
            simp only [ok_bind] at h
            cases hm1 : getItem lesson0 "mistake" with
            | error err => rw [hm1] at h; simp at h
            | ok m1 =>
              rw [hm1] at h
              simp only [ok_bind] at h
              cases hm2 : getItem lesson0 "rule" with
              | error err => rw [hm2] at h; simp at h
              | ok m2 =>
                rw [hm2] at h
                simp only [ok_bind] at h
                cases hm3 : getItem lesson0 "scope" with
                | error err => rw [hm3] at h; simp at h
                | ok m3 =>
                  rw [hm3] at h
                  simp only [ok_bind] at h
                  cases hm4 : getItem lesson0 "enforcement" with
                  | error err => rw [hm4] at h; simp at h
                  | ok m4 =>
                    rw [hm4] at h
                    simp only [ok_bind, pure_eq_ok, Except.ok.injEq] at h
                    rw [← h]
                    refine ⟨kvs, iid, hobj, hlk, rfl, rfl, rfl, rfl, ?_⟩
                    intro issue hissue
                    rw [hfi, Option.some.injEq] at hissue
                    rw [← hissue]
        · simp only [pure_eq_ok, Except.ok.injEq] at h
          rw [← h]
          refine ⟨kvs, iid, hobj, hlk, rfl, rfl, rfl, rfl, ?_⟩
          intro issue hissue
          rw [hfi, Option.some.injEq] at hissue
          rw [← hissue]
      | none =>
        rw [hfi] at h
        simp only [ok_bind, pure_eq_ok] at h
        split at h
        · cases hles : getItem (Json.obj kvs) "lesson" with
          | error err => rw [hles] at h; simp at h
          | ok lesson0 =>
            rw [hles] at h
            simp only [ok_bind] at h
            cases hm1 : getItem lesson0 "mistake" with
            | error err => rw [hm1] at h; simp at h
            | ok m1 =>
              rw [hm1] at h
              simp only [ok_bind] at h
              cases hm2 : getItem lesson0 "rule" with
              | error err => rw [hm2] at h; simp at h
              | ok m2 =>
                rw [hm2] at h
                simp only [ok_bind] at h
                cases hm3 : getItem lesson0 "scope" with
                | error err => rw [hm3] at h; simp at h
                | ok m3 =>
                  rw [hm3] at h
                  simp only [ok_bind] at h
                  cases hm4 : getItem lesson0 "enforcement" with
                  | error err => rw [hm4] at h; simp at h
                  | ok m4 =>
                    rw [hm4] at h
                    simp only [ok_bind, pure_eq_ok, Except.ok.injEq] at h
                    rw [← h]
                    refine ⟨kvs, iid, hobj, hlk, rfl, rfl, rfl, rfl, ?_⟩
                    intro issue hissue
                    rw [hfi] at hissue
                    exact absurd hissue (by simp)
        · simp only [pure_eq_ok, Except.ok.injEq] at h
          rw [← h]
          refine ⟨kvs, iid, hobj, hlk, rfl, rfl, rfl, rfl, ?_⟩
          intro issue hissue
          rw [hfi] at hissue
          exact absurd hissue (by simp)

end ESAA

namespace ESAA

/-- Task-list effect of one dispatched action: unchanged, one appended
record, or the first record with the event's task id rewritten — and a
rewritten record is never `done` before, keeps its id, and never returns
to `todo`. -/
theorem _apply_action_tasks {s : State} {e : Event} {s' : State}
    (h : _apply_action s e = .ok s') :
    s'.tasks = s.tasks ∨ (∃ nt, s'.tasks = s.tasks ++ [nt]) ∨
    (∃ l1 t t' l2, s.tasks = l1 ++ t :: l2 ∧ s'.tasks = l1 ++ t' :: l2 ∧
      (∀ u ∈ l1, u.task_id ≠ t.task_id) ∧ t.status ≠ "done" ∧
      t'.task_id = t.task_id ∧
      (t'.status = "in_progress" ∨ t'.status = "review" ∨
        t'.status = "done")) := by
  unfold _apply_action at h
  by_cases h1 : e.action = "run.start"
  · rw [if_pos h1] at h
    cases hpl : e.payload <;> rw [hpl] at h <;>
      simp only [pyGet, ok_bind, error_bind, pure_eq_ok,
        Except.ok.injEq, reduceCtorEq] at h
    rw [← h]
    exact Or.inl rfl
  rw [if_neg h1] at h
  by_cases h2 : e.action = "run.end"
  · rw [if_pos h2] at h
    cases hpl : e.payload <;> rw [hpl] at h <;>
      simp only [pyGet, ok_bind, error_bind, pure_eq_ok,
        Except.ok.injEq, reduceCtorEq] at h
    rw [← h]
    exact Or.inl rfl
  rw [if_neg h2] at h
  by_cases h3 : e.action = "task.create"
  · rw [if_pos h3] at h
    cases hnt : _new_task e.payload with
    | error err => rw [hnt] at h; simp at h
    | ok nt =>
      rw [hnt] at h
      simp only [ok_bind, pure_eq_ok, Except.ok.injEq] at h
      rw [← h]
      exact Or.inr (Or.inl ⟨nt, rfl⟩)
  rw [if_neg h3] at h
  by_cases h4 : e.action = "claim"
  · rw [if_pos h4] at h
    obtain ⟨tid, l1, t, l2, hp, hs, hl1, hid, hd, hl, hs'⟩ :=
      _apply_claim_ok h
    refine Or.inr (Or.inr ⟨l1, t,
      { t with
        status := "in_progress", assigned_to := some e.actor,
        started_at := some e.ts },
      l2, hs, by rw [hs'], ?_, hd, rfl, Or.inl rfl⟩)
    intro u hu
    rw [← hid] at hl1
    exact hl1 u hu
  rw [if_neg h4] at h
  by_cases h5 : e.action = "complete"
  · rw [if_pos h5] at h
    obtain ⟨tid, l1, t, t', l2, hp, hs, hl1, hid, hip, how, hid', hst', ha',
      hsa', hs'⟩ := _apply_complete_ok h
    refine Or.inr (Or.inr ⟨l1, t, t', l2, hs, by rw [hs'], ?_,
      by simp [hip], hid', Or.inr (Or.inl hst')⟩)
    intro u hu
    rw [← hid] at hl1
    exact hl1 u hu
  rw [if_neg h5] at h
  by_cases h6 : e.action = "review"
  · rw [if_pos h6] at h
    obtain ⟨tid, l1, t, l2, od, hp, hod, hs, hl1, hid, hrv, how, hcase⟩ :=
      _apply_review_ok h
    have hl1' : ∀ u ∈ l1, u.task_id ≠ t.task_id := by
      intro u hu
      rw [← hid] at hl1
      exact hl1 u hu
    rcases hcase with ⟨-, hs'⟩ | ⟨-, hs'⟩
    · exact Or.inr (Or.inr ⟨l1, t,
        { t with status := "done", completed_at := some e.ts }, l2, hs,
        by rw [hs'], hl1', by simp [hrv], rfl, Or.inr (Or.inr rfl)⟩)
    · exact Or.inr (Or.inr ⟨l1, t,
        { t with status := "in_progress" }, l2, hs,
        by rw [hs'], hl1', by simp [hrv], rfl, Or.inl rfl⟩)
  rw [if_neg h6] at h
  by_cases h7 : e.action = "issue.report"
  · rw [if_pos h7] at h
    obtain ⟨kvs, iid, -, -, ht, -, -, -, -⟩ := _apply_issue_report_ok_spec h
    exact Or.inl ht
  rw [if_neg h7] at h
  by_cases h8 : e.action = "hotfix.create"
  · rw [if_pos h8] at h
    obtain ⟨⟨nt, ht⟩, -, -, -⟩ := _apply_hotfix_create_ok_frame h
    exact Or.inr (Or.inl ⟨nt, ht⟩)
  rw [if_neg h8] at h
  by_cases h9 : e.action = "issue.resolve"
  · rw [if_pos h9] at h
    obtain ⟨ht, -, -, -⟩ := _apply_issue_resolve_ok_frame h
    exact Or.inl ht
  rw [if_neg h9] at h
  by_cases h10 : e.action = "verify.ok"
  · rw [if_pos h10] at h
    simp only [pure_eq_ok, Except.ok.injEq] at h
    rw [← h]
    exact Or.inl rfl
  rw [if_neg h10] at h
  by_cases h11 : e.action = "verify.fail"
  · rw [if_pos h11] at h
    cases hpl : e.payload <;> rw [hpl] at h <;>
      simp only [pyGet, ok_bind, error_bind, pure_eq_ok,
        Except.ok.injEq, reduceCtorEq] at h
    rw [← h]
    exact Or.inl rfl
  rw [if_neg h11] at h
  by_cases h12 : e.action = "output.rejected" ∨
      e.action = "orchestrator.file.write" ∨
      e.action = "orchestrator.view.mutate" ∨ e.action = "verify.start"
  · rw [if_pos h12] at h
    simp only [pure_eq_ok, Except.ok.injEq] at h
    rw [← h]
    exact Or.inl rfl
  · rw [if_neg h12] at h
    simp at h

end ESAA

namespace ESAA

/-- A successful `_apply_event` is a successful `_apply_action` followed
by the `last_event_seq`/`updated_at` stamping. -/
theorem _apply_event_ok {s : State} {e : Event} {s' : State}
    (h : _apply_event s e = .ok s') :
    ∃ s'', _apply_action s e = .ok s'' ∧
      s' = { s'' with meta := { s''.meta with
        run := { s''.meta.run with last_event_seq := e.event_seq },
        updated_at := e.ts } } := by
  unfold _apply_event at h
  cases ha : _apply_action s e with
  | error err => rw [ha] at h; simp at h
  | ok s'' =>
    rw [ha] at h
    simp only [ok_bind, pure_eq_ok, Except.ok.injEq] at h
    exact ⟨s'', rfl, h.symm⟩

theorem taskById_append (l1 l2 : List Task) (tid : Json) :
    taskById (l1 ++ l2) tid =
      match taskById l1 tid with
      | some t => some t
      | none => taskById l2 tid := by
  induction l1 with
  | nil => simp [taskById]
  | cons u rest ih =>
    by_cases hu : u.task_id = tid
    · simp [taskById, hu]
    · simp only [List.cons_append, taskById, if_neg hu]
      exact ih

theorem getElem?_append_cons_ne {α : Type} (l1 l2 : List α) (a b : α)
    (i : Nat) (hi : i ≠ l1.length) :
    (l1 ++ a :: l2)[i]? = (l1 ++ b :: l2)[i]? := by
  induction l1 generalizing i with
  | nil =>
    cases i with
    | zero => exact absurd rfl hi
    | succ j => simp
  | cons x xs ih =>
    cases i with
    | zero => simp
    | succ j =>
      simp only [List.cons_append, List.getElem?_cons_succ]
      exact ih j (by simpa using hi)

theorem getElem?_append_cons_self {α : Type} (l1 l2 : List α) (a : α) :
    (l1 ++ a :: l2)[l1.length]? = some a := by
  induction l1 with
  | nil => simp
  | cons x xs ih => simpa using ih

/-- One successful event application never changes a `done` task record. -/
theorem _apply_event_preserves_done {s : State} {e : Event} {s' : State}
    (h : _apply_event s e = .ok s') :
    ∀ (i : Nat) (t : Task), s.tasks[i]? = some t → t.status = "done" →
      s'.tasks[i]? = some t := by
  intro i t hit hdone
  obtain ⟨s'', ha, hstamp⟩ := _apply_event_ok h
  have htasks : s'.tasks = s''.tasks := by rw [hstamp]
  rw [htasks]
  rcases _apply_action_tasks ha with heq | ⟨nt, happ⟩ |
      ⟨l1, t0, t0', l2, hs, hs', hl1, hd0, hid0, hst0⟩
  · rw [heq]; exact hit
  · rw [happ]
    have hi : i < s.tasks.length := by
      by_contra hge
      rw [List.getElem?_eq_none (Nat.le_of_not_lt hge)] at hit
      exact Option.noConfusion hit
    rw [List.getElem?_append, if_pos hi]
    exact hit
  · rw [hs']
    by_cases hieq : i = l1.length
    · subst hieq
      rw [hs, getElem?_append_cons_self] at hit
      injection hit with hit
      rw [hit] at hd0
      exact absurd hdone hd0
    · rw [getElem?_append_cons_ne l1 l2 t0' t0 i hieq, ← hs]
      exact hit

/-- No event sequence changes a `done` task record (fold version). -/
theorem foldlM_preserves_done {events : List Event} {s s' : State}
    (h : events.foldlM _apply_event s = .ok s') :
    ∀ (i : Nat) (t : Task), s.tasks[i]? = some t → t.status = "done" →
      s'.tasks[i]? = some t := by
  induction events generalizing s with
  | nil =>
    simp only [List.foldlM_nil, pure_eq_ok, Except.ok.injEq] at h
    rw [← h]
    exact fun i t hit _ => hit
  | cons e rest ih =>
    rw [List.foldlM_cons] at h
    cases h1 : _apply_event s e with
    | error err => rw [h1] at h; simp at h
    | ok s1 =>
      rw [h1, ok_bind] at h
      intro i t hit hdone
      exact ih h i t (_apply_event_preserves_done h1 i t hit hdone) hdone

end ESAA

namespace ESAA

/-- Any claim/complete/review event whose task id resolves to a `done`
task raises `IMMUTABLE_DONE`. -/
theorem _apply_event_done_immutable {s : State} {e : Event} {tid : Json}
    {t : Task}
    (hact : e.action = "claim" ∨ e.action = "complete" ∨
      e.action = "review")
    (hp : getItem e.payload "task_id" = .ok tid)
    (ht : taskById s.tasks tid = some t) (hd : t.status = "done") :
    _apply_event s e = .error (.esaa "IMMUTABLE_DONE") := by
  have hact' : _apply_action s e = .error (.esaa "IMMUTABLE_DONE") := by
    unfold _apply_action
    rcases hact with ha | ha | ha
    · rw [if_neg (by simp [ha]), if_neg (by simp [ha]),
        if_neg (by simp [ha]), if_pos ha]
      exact _apply_claim_done hp ht hd
    · rw [if_neg (by simp [ha]), if_neg (by simp [ha]),
        if_neg (by simp [ha]), if_neg (by simp [ha]), if_pos ha]
      exact _apply_complete_done hp ht hd
    · rw [if_neg (by simp [ha]), if_neg (by simp [ha]),
        if_neg (by simp [ha]), if_neg (by simp [ha]),
        if_neg (by simp [ha]), if_pos ha]
      exact _apply_review_done hp ht hd
  unfold _apply_event
  rw [hact', error_bind]

/-- A claim event whose task id resolves to a claimed task (status
`in_progress`, `review` or `done`) raises `LOCKED_TASK`, or
`IMMUTABLE_DONE` when the task is `done`; it never succeeds. -/
theorem _apply_event_claim_on_claimed {s : State} {e : Event} {tid : Json}
    {t : Task}
    (ha : e.action = "claim")
    (hp : getItem e.payload "task_id" = .ok tid)
    (ht : taskById s.tasks tid = some t)
    (hst : t.status = "in_progress" ∨ t.status = "review" ∨
      t.status = "done") :
    _apply_event s e =
      .error (.esaa (if t.status = "done" then "IMMUTABLE_DONE"
        else "LOCKED_TASK")) := by
  by_cases hd : t.status = "done"
  · rw [if_pos hd]
    exact _apply_event_done_immutable (Or.inl ha) hp ht hd
  · rw [if_neg hd]
    have hcl : _apply_claim s e = .error (.esaa "LOCKED_TASK") :=
      _apply_claim_locked hp ht hd
        (by rcases hst with h | h | h
            · exact Or.inl h
            · exact Or.inr (Or.inl h)
            · exact absurd h hd)
    unfold _apply_event _apply_action
    rw [if_neg (by simp [ha]), if_neg (by simp [ha]),
      if_neg (by simp [ha]), if_pos ha, hcl, error_bind]

/-- One successful event application keeps the first record with a given
task id claimed (status among `in_progress`/`review`/`done`). -/
theorem _apply_event_preserves_claimed {s : State} {e : Event} {s' : State}
    {tid : Json} {t : Task}
    (h : _apply_event s e = .ok s')
    (ht : taskById s.tasks tid = some t)
    (hst : t.status = "in_progress" ∨ t.status = "review" ∨
      t.status = "done") :
    ∃ t', taskById s'.tasks tid = some t' ∧
      (t'.status = "in_progress" ∨ t'.status = "review" ∨
        t'.status = "done") := by
  obtain ⟨s'', ha, hstamp⟩ := _apply_event_ok h
  have htasks : s'.tasks = s''.tasks := by rw [hstamp]
  rw [htasks]
  rcases _apply_action_tasks ha with heq | ⟨nt, happ⟩ |
      ⟨l1, t0, t0', l2, hs, hs', hl1, hd0, hid0, hst0⟩
  · rw [heq]
    exact ⟨t, ht, hst⟩
  · rw [happ, taskById_append, ht]
    exact ⟨t, rfl, hst⟩
  · rw [hs'] at htasks ⊢
    rw [hs, taskById_append] at ht
    rw [taskById_append]
    cases hl1f : taskById l1 tid with
    | some u =>
      rw [hl1f] at ht
      injection ht with ht
      subst ht
      exact ⟨u, rfl, hst⟩
    | none =>
      rw [hl1f] at ht
      by_cases h0 : t0.task_id = tid
      · simp only [taskById, if_pos h0, Option.some.injEq] at ht
        subst ht
        refine ⟨t0', ?_, hst0⟩
        simp [taskById, hid0, h0]
      · simp only [taskById, if_neg h0] at ht
        refine ⟨t, ?_, hst⟩
        have h0' : t0'.task_id ≠ tid := by rw [hid0]; exact h0
        simp [taskById, h0', ht]

/-- Fold version: once claimed, the first record with a task id stays
claimed across any successful event sequence. -/
theorem foldlM_preserves_claimed {events : List Event} {s s' : State}
    {tid : Json} {t : Task}
    (h : events.foldlM _apply_event s = .ok s')
    (ht : taskById s.tasks tid = some t)
    (hst : t.status = "in_progress" ∨ t.status = "review" ∨
      t.status = "done") :
    ∃ t', taskById s'.tasks tid = some t' ∧
      (t'.status = "in_progress" ∨ t'.status = "review" ∨
        t'.status = "done") := by
  induction events generalizing s t with
  | nil =>
    simp only [List.foldlM_nil, pure_eq_ok, Except.ok.injEq] at h
    rw [← h]
    exact ⟨t, ht, hst⟩
  | cons e rest ih =>
    rw [List.foldlM_cons] at h
    cases h1 : _apply_event s e with
    | error err => rw [h1] at h; simp at h
    | ok s1 =>
      rw [h1, ok_bind] at h
      obtain ⟨t1, ht1, hst1⟩ := _apply_event_preserves_claimed h1 ht hst
      exact ih h ht1 hst1

end ESAA

namespace ESAA

/-- The state stamping `_apply_event` performs after a successful
dispatch. -/
def stampEvent (s : State) (e : Event) : State :=
  { s with meta := { s.meta with
      run := { s.meta.run with last_event_seq := e.event_seq },
      updated_at := e.ts } }

theorem _apply_event_eq_bind (s : State) (e : Event) :
    _apply_event s e = (_apply_action s e).bind fun s' =>
      .ok (stampEvent s' e) := by
  unfold _apply_event stampEvent
  cases _apply_action s e <;> rfl

/-- A `review` event with decision `request_changes` that succeeds moves
the resolved task to `in_progress` and changes nothing else on it. -/
theorem _apply_event_review_rc {s : State} {e : Event} {s' : State}
    {tid : Json} {t : Task} {od : Option Json}
    (ha : e.action = "review")
    (hp : getItem e.payload "task_id" = .ok tid)
    (ht : taskById s.tasks tid = some t)
    (hod : pyGet e.payload "decision" = .ok od)
    (hrc : od.getD .null = .str "request_changes")
    (h : _apply_event s e = .ok s') :
    taskById s'.tasks tid = some { t with status := "in_progress" } := by
  obtain ⟨s'', hact, hstamp⟩ := _apply_event_ok h
  have hrev : _apply_review s e = .ok s'' := by
    rw [← hact]
    unfold _apply_action
    rw [if_neg (by simp [ha]), if_neg (by simp [ha]), if_neg (by simp [ha]),
      if_neg (by simp [ha]), if_neg (by simp [ha]), if_pos ha]
  obtain ⟨tid2, l1, t0, l2, od2, hp2, hod2, hs, hl1, hid0, hrv, how, hcase⟩ :=
    _apply_review_ok hrev
  rw [hp] at hp2
  injection hp2 with hp2
  subst hp2
  rw [hod] at hod2
  injection hod2 with hod2
  subst hod2
  have ht0 : t0 = t := by
    rw [hs, taskById_append_cons hl1 hid0, Option.some.injEq] at ht
    exact ht
  subst ht0
  have htasks : s'.tasks = s''.tasks := by rw [hstamp]
  rcases hcase with ⟨hdec, -⟩ | ⟨-, hs''⟩
  · rw [hdec] at hrc
    exact absurd (Json.str.inj hrc) (by decide)
  · rw [htasks, hs'']
    have : ({ t0 with status := "in_progress" } : Task).task_id = tid :=
      hid0
    simp only [taskById_append, taskById_eq_none (fun u hu =>
      hl1 u hu), taskById, if_pos this]

end ESAA

namespace ESAA

/-- A `complete` event on an `in_progress` task whose owner differs from
the actor raises `NOT_LOCK_OWNER`. -/
theorem _apply_event_complete_not_owner {s : State} {e : Event}
    {tid : Json} {t : Task}
    (ha : e.action = "complete")
    (hp : getItem e.payload "task_id" = .ok tid)
    (ht : taskById s.tasks tid = some t) (hip : t.status = "in_progress")
    (how : t.assigned_to.getD .null ≠ e.actor) :
    _apply_event s e = .error (.esaa "NOT_LOCK_OWNER") := by
  rw [_apply_event_eq_bind]
  have hact : _apply_action s e = .error (.esaa "NOT_LOCK_OWNER") := by
    unfold _apply_action
    rw [if_neg (by simp [ha]), if_neg (by simp [ha]), if_neg (by simp [ha]),
      if_neg (by simp [ha]), if_pos ha]
    exact _apply_complete_not_owner hp ht hip how
  rw [hact]
  rfl

/-- A `review` event on a `review`-status task whose owner differs from
the actor raises `NOT_LOCK_OWNER`. -/
theorem _apply_event_review_not_owner {s : State} {e : Event}
    {tid : Json} {t : Task}
    (ha : e.action = "review")
    (hp : getItem e.payload "task_id" = .ok tid)
    (ht : taskById s.tasks tid = some t) (hrv : t.status = "review")
    (how : t.assigned_to.getD .null ≠ e.actor) :
    _apply_event s e = .error (.esaa "NOT_LOCK_OWNER") := by
  rw [_apply_event_eq_bind]
  have hact : _apply_action s e = .error (.esaa "NOT_LOCK_OWNER") := by
    unfold _apply_action
    rw [if_neg (by simp [ha]), if_neg (by simp [ha]), if_neg (by simp [ha]),
      if_neg (by simp [ha]), if_neg (by simp [ha]), if_pos ha]
    exact _apply_review_not_owner hp ht hrv how
  rw [hact]
  rfl

/-- A successful `complete` or `review` implies the actor owned the lock
on the task the event resolved to. -/
theorem _apply_event_owner_of_ok {s : State} {e : Event} {s' : State}
    (hact : e.action = "complete" ∨ e.action = "review")
    (h : _apply_event s e = .ok s') :
    ∃ tid t, getItem e.payload "task_id" = .ok tid ∧
      taskById s.tasks tid = some t ∧
      t.assigned_to.getD .null = e.actor := by
  obtain ⟨s'', ha, -⟩ := _apply_event_ok h
  rcases hact with hc | hr
  · have hcomp : _apply_complete s e = .ok s'' := by
      rw [← ha]
      unfold _apply_action
      rw [if_neg (by simp [hc]), if_neg (by simp [hc]),
        if_neg (by simp [hc]), if_neg (by simp [hc]), if_pos hc]
    obtain ⟨tid, l1, t, t', l2, hp, hs, hl1, hid, hip, how, -, -, -, -, -⟩ :=
      _apply_complete_ok hcomp
    exact ⟨tid, t, hp, by rw [hs, taskById_append_cons hl1 hid], how⟩
  · have hrev : _apply_review s e = .ok s'' := by
      rw [← ha]
      unfold _apply_action
      rw [if_neg (by simp [hr]), if_neg (by simp [hr]),
        if_neg (by simp [hr]), if_neg (by simp [hr]),
        if_neg (by simp [hr]), if_pos hr]
    obtain ⟨tid, l1, t, l2, od, hp, hod, hs, hl1, hid, hrv, how, -⟩ :=
      _apply_review_ok hrev
    exact ⟨tid, t, hp, by rw [hs, taskById_append_cons hl1 hid], how⟩

/-- `task.create` never checks for duplicates: whenever `_new_task`
succeeds, the event appends the new record, whatever ids already exist. -/
theorem _apply_event_task_create {s : State} {e : Event} {nt : Task}
    (ha : e.action = "task.create")
    (hnt : _new_task e.payload = .ok nt) :
    _apply_event s e = .ok (stampEvent { s with
      tasks := s.tasks ++ [nt] } e) := by
  rw [_apply_event_eq_bind]
  have hact : _apply_action s e = .ok { s with tasks := s.tasks ++ [nt] } := by
    unfold _apply_action
    rw [if_neg (by simp [ha]), if_neg (by simp [ha]), if_pos ha, hnt]
    rfl
  rw [hact]
  rfl

/-- `hotfix.create` with an already-present task id raises
`DUPLICATE_TASK`. -/
theorem _apply_event_hotfix_dup {s : State} {e : Event} {tid : Json}
    (ha : e.action = "hotfix.create")
    (hp : getItem e.payload "task_id" = .ok tid)
    (hdup : (s.tasks.any fun t => t.task_id = tid) = true) :
    _apply_event s e = .error (.esaa "DUPLICATE_TASK") := by
  rw [_apply_event_eq_bind]
  have hact : _apply_action s e = .error (.esaa "DUPLICATE_TASK") := by
    unfold _apply_action
    rw [if_neg (by simp [ha]), if_neg (by simp [ha]), if_neg (by simp [ha]),
      if_neg (by simp [ha]), if_neg (by simp [ha]), if_neg (by simp [ha]),
      if_neg (by simp [ha]), if_pos ha]
    unfold _apply_hotfix_create
    rw [hp, ok_bind, if_pos hdup]
    rfl
  rw [hact]
  rfl

end ESAA

namespace ESAA

/-- The state with only `meta.updated_at` replaced. -/
def withUpd (s : State) (x : Json) : State :=
  { s with meta := { s.meta with updated_at := x } }

theorem _apply_claim_upd (s : State) (x : Json) (e : Event) :
    _apply_claim (withUpd s x) e =
      (_apply_claim s e).map fun s' => withUpd s' x := by
  unfold _apply_claim withUpd
  cases hp : getItem e.payload "task_id" with
  | error err => rfl
  | ok tid =>
    simp only [ok_bind]
    cases hm : modifyFirstTask s.tasks tid _ with
    | error err => rfl
    | ok ts' => rfl

theorem _apply_complete_upd (s : State) (x : Json) (e : Event) :
    _apply_complete (withUpd s x) e =
      (_apply_complete s e).map fun s' => withUpd s' x := by
  unfold _apply_complete withUpd
  cases hp : getItem e.payload "task_id" with
  | error err => rfl
  | ok tid =>
    simp only [ok_bind]
    cases hm : modifyFirstTask s.tasks tid _ with
    | error err => rfl
    | ok ts' => rfl

theorem _apply_review_upd (s : State) (x : Json) (e : Event) :
    _apply_review (withUpd s x) e =
      (_apply_review s e).map fun s' => withUpd s' x := by
  unfold _apply_review withUpd
  cases hp : getItem e.payload "task_id" with
  | error err => rfl
  | ok tid =>
    simp only [ok_bind]
    cases hm : modifyFirstTask s.tasks tid _ with
    | error err => rfl
    | ok ts' => rfl

theorem _apply_issue_resolve_upd (s : State) (x : Json) (e : Event) :
    _apply_issue_resolve (withUpd s x) e =
      (_apply_issue_resolve s e).map fun s' => withUpd s' x := by
  unfold _apply_issue_resolve withUpd
  cases hp : getItem e.payload "issue_id" with
  | error err => rfl
  | ok iid =>
    simp only [ok_bind]
    cases hfi : findIssue s.issues iid with
    | none => rfl
    | some issue =>
      cases hr : pyGet e.payload "resolution" with
      | error err => rfl
      | ok r => rfl

theorem _apply_hotfix_create_upd (s : State) (x : Json) (e : Event) :
    _apply_hotfix_create (withUpd s x) e =
      (_apply_hotfix_create s e).map fun s' => withUpd s' x := by
  unfold _apply_hotfix_create withUpd
  cases hp : getItem e.payload "task_id" with
  | error err => rfl
  | ok tid =>
    simp only [ok_bind]
    split
    · rfl
    · try simp only [pure_eq_ok, ok_bind]
      cases hnt : _new_task e.payload with
      | error err => rfl
      | ok nt =>
        simp only [pure_eq_ok, ok_bind]
        cases hig : pyGet e.payload "issue_id" with
        | error err => rfl
        | ok ig =>
          simp only [pure_eq_ok, ok_bind]
          cases hfi : findIssue s.issues (ig.getD .null) with
          | none => rfl
          | some iss =>
            split
            · rename_i iss2 heq
              injection heq with heq
              subst heq
              split
              · rfl
              · rfl
            · rename_i heq
              exact absurd heq (by simp)

end ESAA

namespace ESAA

theorem _apply_issue_report_upd (s : State) (x : Json) (e : Event) :
    _apply_issue_report (withUpd s x) e =
      (_apply_issue_report s e).map fun s' => withUpd s' x := by
  unfold _apply_issue_report withUpd
  cases hp : getItem e.payload "issue_id" with
  | error err => rfl
  | ok iid =>
    obtain ⟨kvs, hobj, -⟩ := getItem_ok_obj hp
    rw [hobj]
    simp only [pyGet_obj, pure_eq_ok, ok_bind]
    cases hbl : pyGet ((lookupKey kvs "affected").getD (.obj []))
        "baseline_id" with
    | error err => rfl
    | ok bl =>
      simp only [pure_eq_ok, ok_bind]
      cases hfi : findIssue s.issues iid with
      | none =>
        simp only [pure_eq_ok, ok_bind]
        split
        · cases hles : getItem (Json.obj kvs) "lesson" with
          | error err => rfl
          | ok lesson0 =>
            simp only [pure_eq_ok, ok_bind]
            cases hm1 : getItem lesson0 "mistake" with
            | error err => rfl
            | ok m1 =>
              simp only [pure_eq_ok, ok_bind]
              cases hm2 : getItem lesson0 "rule" with
              | error err => rfl
              | ok m2 =>
                simp only [pure_eq_ok, ok_bind]
                cases hm3 : getItem lesson0 "scope" with
                | error err => rfl
                | ok m3 =>
                  simp only [pure_eq_ok, ok_bind]
                  cases hm4 : getItem lesson0 "enforcement" with
                  | error err => rfl
                  | ok m4 => rfl
        · rfl
      | some issue =>
        simp only [pure_eq_ok, ok_bind]
        split
        · cases hles : getItem (Json.obj kvs) "lesson" with
          | error err => rfl
          | ok lesson0 =>
            simp only [pure_eq_ok, ok_bind]
            cases hm1 : getItem lesson0 "mistake" with
            | error err => rfl
            | ok m1 =>
              simp only [pure_eq_ok, ok_bind]
              cases hm2 : getItem lesson0 "rule" with
              | error err => rfl
              | ok m2 =>
                simp only [pure_eq_ok, ok_bind]
                cases hm3 : getItem lesson0 "scope" with
                | error err => rfl
                | ok m3 =>
                  simp only [pure_eq_ok, ok_bind]
                  cases hm4 : getItem lesson0 "enforcement" with
                  | error err => rfl
                  | ok m4 => rfl
        · rfl

end ESAA

namespace ESAA

theorem _apply_action_upd (s : State) (x : Json) (e : Event) :
    _apply_action (withUpd s x) e =
      (_apply_action s e).map fun s' => withUpd s' x := by
  unfold _apply_action
  by_cases ha1 : e.action = "run.start"
  · simp only [if_pos ha1]
    unfold withUpd
    cases h1 : pyGet e.payload "master_correlation_id" with
    | error e1 => rfl
    | ok v1 =>
      simp only [pure_eq_ok, ok_bind]
      cases h2 : pyGet e.payload "run_id" with
      | error e2 => rfl
      | ok v2 =>
        simp only [pure_eq_ok, ok_bind]
        cases h3 : pyGet e.payload "status" with
        | error e3 => rfl
        | ok v3 => rfl
  simp only [if_neg ha1]
  by_cases ha2 : e.action = "run.end"
  · simp only [if_pos ha2]
    unfold withUpd
    cases h1 : pyGet e.payload "status" with
    | error e1 => rfl
    | ok v1 => rfl
  simp only [if_neg ha2]
  by_cases ha3 : e.action = "task.create"
  · simp only [if_pos ha3]
    unfold withUpd
    cases h1 : _new_task e.payload with
    | error e1 => rfl
    | ok nt => rfl
  simp only [if_neg ha3]
  by_cases ha4 : e.action = "claim"
  · simp only [if_pos ha4]
    exact _apply_claim_upd s x e
  simp only [if_neg ha4]
  by_cases ha5 : e.action = "complete"
  · simp only [if_pos ha5]
    exact _apply_complete_upd s x e
  simp only [if_neg ha5]
  by_cases ha6 : e.action = "review"
  · simp only [if_pos ha6]
    exact _apply_review_upd s x e
  simp only [if_neg ha6]
  by_cases ha7 : e.action = "issue.report"
  · simp only [if_pos ha7]
    exact _apply_issue_report_upd s x e
  simp only [if_neg ha7]
  by_cases ha8 : e.action = "hotfix.create"
  · simp only [if_pos ha8]
    exact _apply_hotfix_create_upd s x e
  simp only [if_neg ha8]
  by_cases ha9 : e.action = "issue.resolve"
  · simp only [if_pos ha9]
    exact _apply_issue_resolve_upd s x e
  simp only [if_neg ha9]
  by_cases ha10 : e.action = "verify.ok"
  · simp only [if_pos ha10]
    rfl
  simp only [if_neg ha10]
  by_cases ha11 : e.action = "verify.fail"
  · simp only [if_pos ha11]
    unfold withUpd
    cases h1 : pyGet e.payload "verify_status" with
    | error e1 => rfl
    | ok v1 => rfl
  simp only [if_neg ha11]
  by_cases ha12 : e.action = "output.rejected" ∨
      e.action = "orchestrator.file.write" ∨
      e.action = "orchestrator.view.mutate" ∨ e.action = "verify.start"
  · simp only [if_pos ha12]
    rfl
  · simp only [if_neg ha12]
    rfl

theorem _apply_event_upd (s : State) (x : Json) (e : Event) :
    _apply_event (withUpd s x) e = _apply_event s e := by
  rw [_apply_event_eq_bind, _apply_event_eq_bind, _apply_action_upd]
  cases _apply_action s e with
  | error err => rfl
  | ok s' => rfl

/-- `materializeState` ignores the initial `utc_now_iso()` timestamp as
soon as there is at least one event. -/
theorem foldlM_upd {events : List Event} (s : State) (x : Json)
    (hne : events ≠ []) :
    events.foldlM _apply_event (withUpd s x) =
      events.foldlM _apply_event s := by
  cases events with
  | nil => exact absurd rfl hne
  | cons e rest => rw [List.foldlM_cons, List.foldlM_cons, _apply_event_upd]

/-- The projection hash is a function of exactly the four hashed
components (`compute_projection_hash` congruence). -/
theorem compute_projection_hash_congr {r1 r2 : Roadmap}
    (h1 : r1.meta.schema_version = r2.meta.schema_version)
    (h2 : r1.project = r2.project) (h3 : r1.tasks = r2.tasks)
    (h4 : r1.indexes = r2.indexes) :
    compute_projection_hash r1 = compute_projection_hash r2 := by
  unfold compute_projection_hash
  rw [h1, h2, h3, h4]

end ESAA

namespace ESAA

/-- The reported projection hash does not depend on the wall-clock
timestamp taken at `_empty_state`. -/
theorem materialize_hash_now (events : List Event) (now1 now2 pn : String) :
    (materialize events now1 pn).map
        (fun r => r.meta.run.projection_hash_sha256) =
      (materialize events now2 pn).map
        (fun r => r.meta.run.projection_hash_sha256) := by
  cases events with
  | cons e rest =>
    have hms : materializeState (e :: rest) now1 pn =
        materializeState (e :: rest) now2 pn := by
      unfold materializeState
      rw [show _empty_state pn now1 =
        withUpd (_empty_state pn now2) (.str now1) from rfl,
        foldlM_upd _ _ (by simp)]
    unfold materialize
    rw [hms]
  | nil =>
    have h1 : materializeState [] now1 pn =
        .ok { _empty_state pn now1 with indexes := {} } := rfl
    have h2 : materializeState [] now2 pn =
        .ok { _empty_state pn now2 with indexes := {} } := rfl
    unfold materialize
    rw [h1, h2]
    simp only [ok_bind, pure_eq_ok, ok_map]
    refine congrArg Except.ok ?_
    apply compute_projection_hash_congr <;> rfl

end ESAA

namespace ESAA

/-- A successfully parsed line advances `last_seq` by exactly one and
carries that sequence number. -/
theorem parseStep_ok {raw : Json} {seen : List Json} {last : Int}
    {e : Event} {seen1 : List Json} {last1 : Int}
    (h : parseStep raw seen last = .ok (e, seen1, last1)) :
    last1 = last + 1 ∧ e.event_seq = last + 1 := by
  unfold parseStep at h
  cases hn : normalize_legacy_event raw with
  | error err => rw [hn] at h; simp at h
  | ok ev =>
    rw [hn] at h
    simp only [ok_bind] at h
    cases ev <;> try simp at h
    case obj kvs =>
    cases hsq : (lookupKey kvs "event_seq").bind pyInt? with
    | none => rw [hsq] at h; simp at h
    | some n =>
      rw [hsq] at h
      simp only [ok_bind] at h
      by_cases hne : n = last + 1
      · rw [if_pos hne] at h
        generalize hk : (if hasKey kvs "event_id" = true then kvs
          else setKey kvs "event_id" (Json.str (legacyEventId n))) = kvs2 at h
        split at h
        · simp at h
        · split at h
          · simp at h
          · split at h
            · split at h
              · simp only [pure_eq_ok, ok_bind, Except.ok.injEq,
                  Prod.mk.injEq] at h
                refine ⟨by rw [← h.2.2, hne], ?_⟩
                rw [← h.1, ← hne]
              · simp at h
            · simp at h
      · rw [if_neg hne] at h
        simp at h

end ESAA

namespace ESAA

/-- Sequence discipline of the parse loop: one event per line, and the
`i`-th event carries sequence number `last + i + 1`. -/
theorem parseAux_ok_seq {lines : List Json} {seen : List Json} {last : Int}
    {evs : List Event} {seen' : List Json} {last' : Int}
    (h : parseAux lines seen last = .ok (evs, seen', last')) :
    evs.length = lines.length ∧ last' = last + lines.length ∧
      ∀ (i : Nat) (hi : i < evs.length),
        (evs.get ⟨i, hi⟩).event_seq = last + i + 1 := by
  induction lines generalizing seen last evs seen' last' with
  | nil =>
    simp only [parseAux, Except.ok.injEq, Prod.mk.injEq] at h
    obtain ⟨h1, -, h3⟩ := h
    refine ⟨by rw [← h1]; rfl, by rw [← h3]; simp, ?_⟩
    intro i hi
    rw [← h1] at hi
    exact absurd hi (by simp)
  | cons raw rest ih =>
    simp only [parseAux] at h
    cases hstep : parseStep raw seen last with
    | error err => rw [hstep] at h; simp at h
    | ok r =>
      obtain ⟨e, seen1, last1⟩ := r
      rw [hstep] at h
      simp only [ok_bind] at h
      cases haux : parseAux rest seen1 last1 with
      | error err => rw [haux] at h; simp at h
      | ok r2 =>
        obtain ⟨es, s2, l2⟩ := r2
        rw [haux] at h
        simp only [ok_bind, pure_eq_ok, Except.ok.injEq, Prod.mk.injEq] at h
        obtain ⟨he, -, hl⟩ := h
        obtain ⟨hlast1, hseq⟩ := parseStep_ok hstep
        obtain ⟨ihlen, ihlast, ihseq⟩ := ih haux
        subst hlast1
        subst he
        subst hl
        refine ⟨by simp [ihlen], ?_, ?_⟩
        · rw [ihlast]
          simp only [List.length_cons]
          push_cast
          ring
        · intro i hi
          cases i with
          | zero => simpa using hseq
          | succ j =>
            simp only [List.get_cons_succ]
            have hj : j < es.length := by
              simpa using Nat.lt_of_succ_lt_succ (by simpa using hi)
            rw [ihseq j hj]
            push_cast
            ring

/-- The parse loop distributes over list append. -/
theorem parseAux_append (xs ys : List Json) (seen : List Json)
    (last : Int) :
    parseAux (xs ++ ys) seen last = (parseAux xs seen last).bind fun r =>
      (parseAux ys r.2.1 r.2.2).map fun r2 => (r.1 ++ r2.1, r2.2) := by
  induction xs generalizing seen last with
  | nil =>
    simp only [List.nil_append, parseAux, Except.bind_ok_left]
    cases hys : parseAux ys seen last with
    | error err => rfl
    | ok r2 => simp
  | cons raw rest ih =>
    simp only [List.cons_append, parseAux, List.append_eq]
    cases hstep : parseStep raw seen last with
    | error err => rfl
    | ok r =>
      obtain ⟨e, seen1, last1⟩ := r
      simp only [ok_bind]
      rw [ih]
      cases haux : parseAux rest seen1 last1 with
      | error err => rfl
      | ok r2 =>
        obtain ⟨es, s2, l2⟩ := r2
        simp only [Except.bind_ok_left, ok_bind, pure_eq_ok]
        cases hys : parseAux ys s2 l2 with
        | error err => simp [hys]
        | ok r3 => simp [hys]

/-- A line whose normalized form has a non-integer `event_seq` stops the
parse with `EVENT_SEQ_INVALID`. -/
theorem parseStep_seq_invalid {raw : Json} {kvs : List (String × Json)}
    {seen : List Json} {last : Int}
    (hn : normalize_legacy_event raw = .ok (.obj kvs))
    (hs : (lookupKey kvs "event_seq").bind pyInt? = none) :
    parseStep raw seen last = .error (.corrupted "EVENT_SEQ_INVALID") := by
  unfold parseStep
  rw [hn]
  simp only [ok_bind, pure_eq_ok]
  rw [hs]
  rfl

/-- A line whose normalized `event_seq` differs from `last_seq + 1` stops
the parse with `EVENT_SEQ_NON_MONOTONIC`. -/
theorem parseStep_seq_nonmono {raw : Json} {kvs : List (String × Json)}
    {seen : List Json} {last : Int} {n : Int}
    (hn : normalize_legacy_event raw = .ok (.obj kvs))
    (hs : (lookupKey kvs "event_seq").bind pyInt? = some n)
    (hne : n ≠ last + 1) :
    parseStep raw seen last =
      .error (.corrupted "EVENT_SEQ_NON_MONOTONIC") := by
  unfold parseStep
  rw [hn]
  simp only [ok_bind, pure_eq_ok]
  rw [hs]
  simp only [ok_bind, pure_eq_ok]
  rw [if_pos hne]
  rfl

end ESAA

namespace ESAA

/-- Filtering by `event_seq ≤ k` on a run of consecutive sequence numbers
starting at `base + 1` is a prefix `take`. -/
theorem filter_seq_take (events : List Event) (base k : Int)
    (hseq : ∀ (i : Nat) (hi : i < events.length),
      (events.get ⟨i, hi⟩).event_seq = base + i + 1) :
    (events.filter fun ev => ev.event_seq ≤ k) =
      events.take (k - base).toNat := by
  induction events generalizing base with
  | nil => simp
  | cons e rest ih =>
    have he : e.event_seq = base + 1 := by simpa using hseq 0 (by simp)
    have hrest : ∀ (i : Nat) (hi : i < rest.length),
        (rest.get ⟨i, hi⟩).event_seq = (base + 1) + i + 1 := by
      intro i hi
      have h := hseq (i + 1) (by simpa using Nat.succ_lt_succ hi)
      simp only [List.get_cons_succ] at h
      rw [h]
      push_cast
      ring
    by_cases hk : e.event_seq ≤ k
    · rw [List.filter_cons_of_pos (by simpa using hk), ih (base + 1) hrest]
      have harith : (k - base).toNat = (k - (base + 1)).toNat + 1 := by
        rw [he] at hk
        omega
      rw [harith, List.take_succ_cons]
    · rw [List.filter_cons_of_neg (by simpa using hk), ih (base + 1) hrest]
      rw [he] at hk
      have h1 : (k - (base + 1)).toNat = 0 := by omega
      have h2 : (k - base).toNat = 0 := by omega
      rw [h1, h2]
      simp

/-- A successful `parse_event_store` exposes the loop state. -/
theorem parse_event_store_ok {lines : List Json} {events : List Event}
    (h : parse_event_store lines = .ok events) :
    ∃ seen' last', parseAux lines [] 0 = .ok (events, seen', last') := by
  unfold parse_event_store at h
  cases ha : parseAux lines [] 0 with
  | error err => rw [ha] at h; simp at h
  | ok r =>
    obtain ⟨evs, seen', last'⟩ := r
    rw [ha] at h
    simp only [ok_map, Except.ok.injEq] at h
    exact ⟨seen', last', by rw [h]⟩

/-- Events returned by `parse_event_store` are numbered `1..N`. -/
theorem parse_event_store_seq {lines : List Json} {events : List Event}
    (h : parse_event_store lines = .ok events) :
    events.length = lines.length ∧
      ∀ (i : Nat) (hi : i < events.length),
        (events.get ⟨i, hi⟩).event_seq = i + 1 := by
  obtain ⟨seen', last', ha⟩ := parse_event_store_ok h
  obtain ⟨hlen, -, hseq⟩ := parseAux_ok_seq ha
  refine ⟨hlen, fun i hi => ?_⟩
  rw [hseq i hi]
  ring

/-- The numeric-`until` branch of replay's selection takes exactly the
prefix of the first `k` events. -/
theorem replaySelect_digits {events : List Event} {u : String} {k : Nat}
    (hd : strIsDigit u = true) (hk : strToNat u = k)
    (hseq : ∀ (i : Nat) (hi : i < events.length),
      (events.get ⟨i, hi⟩).event_seq = i + 1) :
    replaySelect events (some u) = events.take k := by
  unfold replaySelect
  have hne : u ≠ "" := by
    intro he
    rw [he] at hd
    simp [strIsDigit] at hd
  simp only [if_neg hne, if_pos hd, hk]
  rw [filter_seq_take events 0 (k : Int) (by
    intro i hi
    rw [hseq i hi]
    ring)]
  simp

end ESAA


namespace ESAA

theorem lookupKey_setKey_self (l : List (String × Json)) (k : String)
    (v : Json) : lookupKey (setKey l k v) k = some v := by
  induction l with
  | nil => simp [setKey, lookupKey]
  | cons p rest ih =>
    obtain ⟨k0, v0⟩ := p
    by_cases hk : k0 = k
    · simp [setKey, lookupKey, hk]
    · simp only [setKey, if_neg hk, lookupKey]
      exact ih

theorem lookupKey_setKey_ne (l : List (String × Json)) (k : String)
    (v : Json) (k' : String) (h : k' ≠ k) :
    lookupKey (setKey l k v) k' = lookupKey l k' := by
  induction l with
  | nil =>
    simp only [setKey, lookupKey]
    rw [if_neg (fun he => h he.symm)]
  | cons p rest ih =>
    obtain ⟨k0, v0⟩ := p
    by_cases hk : k0 = k
    · subst hk
      simp only [setKey, if_pos rfl, lookupKey]
      rw [if_neg (fun he => h he.symm), if_neg (fun he => h he.symm)]
    · simp only [setKey, if_neg hk, lookupKey]
      by_cases hk0 : k0 = k'
      · rw [if_pos hk0, if_pos hk0]
      · rw [if_neg hk0, if_neg hk0]
        exact ih

theorem lookupKey_delKey_ne (l : List (String × Json)) (k k' : String)
    (h : k' ≠ k) : lookupKey (delKey l k) k' = lookupKey l k' := by
  induction l with
  | nil => rfl
  | cons p rest ih =>
    obtain ⟨k0, v0⟩ := p
    by_cases hk : k0 = k
    · subst hk
      simp only [delKey, lookupKey, if_true]
      rw [if_neg (fun he => h he.symm)]
    · simp only [delKey, if_neg hk, lookupKey]
      by_cases hk0 : k0 = k'
      · rw [if_pos hk0, if_pos hk0]
      · rw [if_neg hk0, if_neg hk0]
        exact ih

theorem lookupKey_append (l1 l2 : List (String × Json)) (k : String) :
    lookupKey (l1 ++ l2) k =
      match lookupKey l1 k with
      | some v => some v
      | none => lookupKey l2 k := by
  induction l1 with
  | nil => simp [lookupKey]
  | cons p rest ih =>
    obtain ⟨k0, v0⟩ := p
    by_cases hk : k0 = k
    · simp [List.cons_append, lookupKey, hk]
    · simp only [List.cons_append, lookupKey, if_neg hk]
      exact ih

theorem hasKey_of_lookup_none {l : List (String × Json)} {k : String}
    (h : lookupKey l k = none) : hasKey l k = false := by
  simp [hasKey, h]

theorem hasKey_of_lookup_some {l : List (String × Json)} {k : String}
    {v : Json} (h : lookupKey l k = some v) : hasKey l k = true := by
  simp [hasKey, h]

end ESAA

namespace ESAA

theorem pySetdefault_present (l : List (String × Json)) (k : String)
    (v : Json) (h : hasKey l k = true) : pySetdefault l k v = l := by
  unfold pySetdefault
  rw [if_pos h]

theorem pySetdefault_absent (l : List (String × Json)) (k : String)
    (v : Json) (h : lookupKey l k = none) :
    pySetdefault l k v = l ++ [(k, v)] := by
  unfold pySetdefault
  rw [if_neg (by simp [hasKey, h])]

/-- C8: parsing a single stored event with action `run.init`, a `data`
field, no `payload` and no `event_id` yields an event with action
`run.start`, payload equal to the former data with `status` defaulted to
`"initialized"`, event id `LEGACY-EV-00000001`, and schema_version
defaulted to `"0.3.0"`. -/
theorem claim_C8 (kvs dkvs : List (String × Json))
    (hact : lookupKey kvs "action" = some (.str "run.init"))
    (hdata : lookupKey kvs "data" = some (.obj dkvs))
    (hpl : lookupKey kvs "payload" = none)
    (hsv : lookupKey kvs "schema_version" = none)
    (hid : lookupKey kvs "event_id" = none)
    (hseq : lookupKey kvs "event_seq" = some (.num 1))
    (hts : hasKey kvs "ts" = true)
    (hactor : hasKey kvs "actor" = true) :
    parse_event_store [.obj kvs] = .ok [{
      schema_version := .str "0.3.0"
      event_id := .str "LEGACY-EV-00000001"
      event_seq := 1
      ts := (lookupKey kvs "ts").getD .null
      actor := (lookupKey kvs "actor").getD .null
      action := "run.start"
      payload := .obj (pySetdefault dkvs "status" (.str "initialized")) }] := by
  have hpd : lookupKey (delKey kvs "data") "payload" = none := by
    rw [lookupKey_delKey_ne kvs "data" "payload" (by decide), hpl]
  have hk1 : ∀ k, k ≠ "payload" → k ≠ "data" →
      lookupKey (setKey (delKey kvs "data") "payload" (.obj dkvs)) k
        = lookupKey kvs k := by
    intro k h1 h2
    rw [lookupKey_setKey_ne _ _ _ _ h1, lookupKey_delKey_ne _ _ _ h2]
  have hN : normalize_legacy_event (.obj kvs) = .ok (.obj
      (setKey (setKey (setKey (delKey kvs "data") "payload" (.obj dkvs))
          "action" (.str "run.start")) "payload"
          (.obj (pySetdefault dkvs "status" (.str "initialized")))
        ++ [("schema_version", .str "0.3.0")])) := by
    unfold normalize_legacy_event
    have hcond : (¬ hasKey kvs "payload" = true ∧ hasKey kvs "data" = true) :=
      ⟨by rw [hasKey_of_lookup_none hpl]; simp, hasKey_of_lookup_some hdata⟩
    simp only [if_pos hcond, hdata, Option.getD_some]
    have haction1 : lookupKey (setKey (delKey kvs "data") "payload"
        (.obj dkvs)) "action" = some (.str "run.init") := by
      rw [hk1 _ (by decide) (by decide)]; exact hact
    rw [if_pos haction1]
    have hAp : lookupKey (setKey (setKey (delKey kvs "data") "payload"
        (.obj dkvs)) "action" (.str "run.start")) "payload"
        = some (.obj dkvs) := by
      rw [lookupKey_setKey_ne _ _ _ _ (by decide)]
      exact lookupKey_setKey_self _ _ _
    have hsd : pySetdefault (setKey (setKey (delKey kvs "data") "payload"
        (.obj dkvs)) "action" (.str "run.start")) "payload" (.obj [])
        = setKey (setKey (delKey kvs "data") "payload" (.obj dkvs))
          "action" (.str "run.start") := by
      exact pySetdefault_present _ _ _ (hasKey_of_lookup_some hAp)
    rw [hsd, hAp]
    simp only [pure_eq_ok, ok_bind]
    have hsv2 : lookupKey (setKey (setKey (setKey (delKey kvs "data")
        "payload" (.obj dkvs)) "action" (.str "run.start")) "payload"
        (.obj (pySetdefault dkvs "status" (.str "initialized"))))
        "schema_version" = none := by
      rw [lookupKey_setKey_ne _ _ _ _ (by decide),
        lookupKey_setKey_ne _ _ _ _ (by decide),
        hk1 _ (by decide) (by decide)]
      exact hsv
    rw [pySetdefault_absent _ _ _ hsv2]
  have hKVS : ∀ k, k ≠ "schema_version" → k ≠ "payload" → k ≠ "action" →
      k ≠ "data" →
      lookupKey (setKey (setKey (setKey (delKey kvs "data") "payload"
          (.obj dkvs)) "action" (.str "run.start")) "payload"
          (.obj (pySetdefault dkvs "status" (.str "initialized")))
        ++ [("schema_version", .str "0.3.0")]) k = lookupKey kvs k := by
    intro k h1 h2 h3 h4
    rw [lookupKey_append, lookupKey_setKey_ne _ _ _ _ h2,
      lookupKey_setKey_ne _ _ _ _ h3, hk1 _ h2 h4]
    cases hc : lookupKey kvs k with
    | some v => rfl
    | none =>
      simp only [lookupKey]
      rw [if_neg (fun he => h1 he.symm)]
  have hKsv : lookupKey (setKey (setKey (setKey (delKey kvs "data")
      "payload" (.obj dkvs)) "action" (.str "run.start")) "payload"
      (.obj (pySetdefault dkvs "status" (.str "initialized")))
      ++ [("schema_version", .str "0.3.0")]) "schema_version"
      = some (.str "0.3.0") := by
    rw [lookupKey_append, lookupKey_setKey_ne _ _ _ _ (by decide),
      lookupKey_setKey_ne _ _ _ _ (by decide), hk1 _ (by decide) (by decide),
      hsv]
    simp [lookupKey]
  have hKpl : lookupKey (setKey (setKey (setKey (delKey kvs "data")
      "payload" (.obj dkvs)) "action" (.str "run.start")) "payload"
      (.obj (pySetdefault dkvs "status" (.str "initialized")))
      ++ [("schema_version", .str "0.3.0")]) "payload"
      = some (.obj (pySetdefault dkvs "status" (.str "initialized"))) := by
    rw [lookupKey_append, lookupKey_setKey_self]
  have hKact : lookupKey (setKey (setKey (setKey (delKey kvs "data")
      "payload" (.obj dkvs)) "action" (.str "run.start")) "payload"
      (.obj (pySetdefault dkvs "status" (.str "initialized")))
      ++ [("schema_version", .str "0.3.0")]) "action"
      = some (.str "run.start") := by
    rw [lookupKey_append, lookupKey_setKey_ne _ _ _ _ (by decide),
      lookupKey_setKey_self]
  have hlid : legacyEventId 1 = "LEGACY-EV-00000001" := by decide
  have hStep : parseStep (.obj kvs) [] 0 = .ok
      ({ schema_version := .str "0.3.0",
         event_id := .str "LEGACY-EV-00000001",
         event_seq := 1,
         ts := (lookupKey kvs "ts").getD .null,
         actor := (lookupKey kvs "actor").getD .null,
         action := "run.start",
         payload := .obj (pySetdefault dkvs "status" (.str "initialized")) },
       [.str "LEGACY-EV-00000001"], 1) := by
    have hKseq : lookupKey (setKey (setKey (setKey (delKey kvs "data")
        "payload" (.obj dkvs)) "action" (.str "run.start")) "payload"
        (.obj (pySetdefault dkvs "status" (.str "initialized")))
        ++ [("schema_version", .str "0.3.0")]) "event_seq"
        = some (.num 1) := by
      rw [hKVS _ (by decide) (by decide) (by decide) (by decide)]
      exact hseq
    have hKid : lookupKey (setKey (setKey (setKey (delKey kvs "data")
        "payload" (.obj dkvs)) "action" (.str "run.start")) "payload"
        (.obj (pySetdefault dkvs "status" (.str "initialized")))
        ++ [("schema_version", .str "0.3.0")]) "event_id" = none := by
      rw [hKVS _ (by decide) (by decide) (by decide) (by decide)]
      exact hid
    have hKts : lookupKey (setKey (setKey (setKey (delKey kvs "data")
        "payload" (.obj dkvs)) "action" (.str "run.start")) "payload"
        (.obj (pySetdefault dkvs "status" (.str "initialized")))
        ++ [("schema_version", .str "0.3.0")]) "ts" = lookupKey kvs "ts" :=
      hKVS _ (by decide) (by decide) (by decide) (by decide)
    have hKactor : lookupKey (setKey (setKey (setKey (delKey kvs "data")
        "payload" (.obj dkvs)) "action" (.str "run.start")) "payload"
        (.obj (pySetdefault dkvs "status" (.str "initialized")))
        ++ [("schema_version", .str "0.3.0")]) "actor"
        = lookupKey kvs "actor" :=
      hKVS _ (by decide) (by decide) (by decide) (by decide)
    unfold parseStep
    rw [hN]
    simp only [ok_bind, pure_eq_ok]
    simp only [hKseq, Option.some_bind, pyInt?]
    rw [if_neg (by decide : ¬((1 : Int) ≠ 0 + 1))]
    simp only [hasKey_of_lookup_none hKid, Bool.false_eq_true, if_false]
    have h4id : lookupKey (setKey (setKey (setKey (setKey (delKey kvs "data")
        "payload" (.obj dkvs)) "action" (.str "run.start")) "payload"
        (.obj (pySetdefault dkvs "status" (.str "initialized")))
        ++ [("schema_version", .str "0.3.0")]) "event_id" (.str (legacyEventId 1))) "event_id"
        = some (.str (legacyEventId 1)) := lookupKey_setKey_self _ _ _
    have h4sv : lookupKey (setKey (setKey (setKey (setKey (delKey kvs "data")
        "payload" (.obj dkvs)) "action" (.str "run.start")) "payload"
        (.obj (pySetdefault dkvs "status" (.str "initialized")))
        ++ [("schema_version", .str "0.3.0")]) "event_id" (.str (legacyEventId 1))) "schema_version"
        = some (.str "0.3.0") := by
      rw [lookupKey_setKey_ne _ _ _ _ (by decide)]
      exact hKsv
    have h4seq : lookupKey (setKey (setKey (setKey (setKey (delKey kvs "data")
        "payload" (.obj dkvs)) "action" (.str "run.start")) "payload"
        (.obj (pySetdefault dkvs "status" (.str "initialized")))
        ++ [("schema_version", .str "0.3.0")]) "event_id" (.str (legacyEventId 1))) "event_seq"
        = some (.num 1) := by
      rw [lookupKey_setKey_ne _ _ _ _ (by decide)]
      exact hKseq
    have h4ts : lookupKey (setKey (setKey (setKey (setKey (delKey kvs "data")
        "payload" (.obj dkvs)) "action" (.str "run.start")) "payload"
        (.obj (pySetdefault dkvs "status" (.str "initialized")))
        ++ [("schema_version", .str "0.3.0")]) "event_id" (.str (legacyEventId 1))) "ts" = lookupKey kvs "ts" := by
      rw [lookupKey_setKey_ne _ _ _ _ (by decide)]
      exact hKts
    have h4actor : lookupKey (setKey (setKey (setKey (setKey (delKey kvs "data")
        "payload" (.obj dkvs)) "action" (.str "run.start")) "payload"
        (.obj (pySetdefault dkvs "status" (.str "initialized")))
        ++ [("schema_version", .str "0.3.0")]) "event_id" (.str (legacyEventId 1))) "actor" = lookupKey kvs "actor" := by
      rw [lookupKey_setKey_ne _ _ _ _ (by decide)]
      exact hKactor
    have h4act : lookupKey (setKey (setKey (setKey (setKey (delKey kvs "data")
        "payload" (.obj dkvs)) "action" (.str "run.start")) "payload"
        (.obj (pySetdefault dkvs "status" (.str "initialized")))
        ++ [("schema_version", .str "0.3.0")]) "event_id" (.str (legacyEventId 1))) "action"
        = some (.str "run.start") := by
      rw [lookupKey_setKey_ne _ _ _ _ (by decide)]
      exact hKact
    have h4pl : lookupKey (setKey (setKey (setKey (setKey (delKey kvs "data")
        "payload" (.obj dkvs)) "action" (.str "run.start")) "payload"
        (.obj (pySetdefault dkvs "status" (.str "initialized")))
        ++ [("schema_version", .str "0.3.0")]) "event_id" (.str (legacyEventId 1))) "payload"
        = some (.obj (pySetdefault dkvs "status" (.str "initialized"))) := by
      rw [lookupKey_setKey_ne _ _ _ _ (by decide)]
      exact hKpl
    have hreq : (["schema_version", "event_id", "event_seq", "ts",
        "actor", "action", "payload"].any fun k =>
          ¬ hasKey (setKey (setKey (setKey (setKey (delKey kvs "data")
        "payload" (.obj dkvs)) "action" (.str "run.start")) "payload"
        (.obj (pySetdefault dkvs "status" (.str "initialized")))
        ++ [("schema_version", .str "0.3.0")]) "event_id" (.str (legacyEventId 1))) k) = false := by
      simp only [List.any_cons, List.any_nil, hasKey_of_lookup_some h4id,
        hasKey_of_lookup_some h4sv, hasKey_of_lookup_some h4seq,
        hasKey_of_lookup_some h4act, hasKey_of_lookup_some h4pl]
      simp only [hasKey] at hts hactor ⊢
      simp only [h4ts, h4actor]
      simp [hts, hactor]
    simp only [h4id, Option.getD_some]
    simp only [List.contains, List.elem_eq_mem, List.mem_nil_iff,
      decide_False, Bool.false_eq_true, if_false]
    simp only [hreq, Bool.false_eq_true, if_false]
    simp only [h4act]
    rw [if_pos (by decide : "run.start" ∈ CANONICAL_ACTIONS)]
    simp only [h4sv, h4seq, h4ts, h4actor, h4pl, Option.getD_some]
    simp only [hlid]
  unfold parse_event_store parseAux
  rw [hStep]
  simp only [ok_bind, pure_eq_ok, parseAux, ok_map]

/-- Witness for C8 at the legacy `run.init` line of the compat round-trip
test. -/
theorem claim_C8_witness :
    parse_event_store [Json.obj [("event_seq", .num 1), ("ts", .str "T1"),
      ("actor", .str "orchestrator"), ("action", .str "run.init"),
      ("data", .obj [("run_id", .str "RUN-1")])]] = .ok [{
        schema_version := .str "0.3.0",
        event_id := .str "LEGACY-EV-00000001",
        event_seq := 1,
        ts := .str "T1",
        actor := .str "orchestrator",
        action := "run.start",
        payload := .obj [("run_id", .str "RUN-1"),
          ("status", .str "initialized")] }] :=
  claim_C8 [("event_seq", .num 1), ("ts", .str "T1"),
      ("actor", .str "orchestrator"), ("action", .str "run.init"),
      ("data", .obj [("run_id", .str "RUN-1")])]
    [("run_id", .str "RUN-1")] rfl rfl rfl rfl rfl rfl rfl rfl

end ESAA

namespace ESAA

/-- C3: the validator's path normalization strips every leading `.` and
`/` character (Python `lstrip("./")`), so a path with a leading `..`
component or a leading `/` is normalized into a relative path and
accepted, contrary to the claim that such paths raise
BOUNDARY_VIOLATION; only an interior `..` component is still rejected. -/
theorem claim_C3 :
    _validate_safe_path "../escape.txt" = .ok "escape.txt" ∧
    _validate_safe_path "/etc/passwd" = .ok "etc/passwd" ∧
    _validate_safe_path "a/../b" = .error (.esaa "BOUNDARY_VIOLATION") ∧
    _validate_safe_path "" = .error (.esaa "BOUNDARY_VIOLATION") := by
  refine ⟨by decide, by decide, by decide, by decide⟩

end ESAA

namespace ESAA

/-- C1: the projection hash is a function of exactly the substructure
`{schema_version, project, tasks, indexes}` — any two roadmaps that agree
on those four fields (whatever their `meta.updated_at` and other meta
fields) hash equal — and two materializations of the same events at
different wall-clock times report equal projection hashes. -/
theorem claim_C1 (events : List Event) (now1 now2 pn : String)
    (r1 r2 : Roadmap)
    (h1 : r1.meta.schema_version = r2.meta.schema_version)
    (h2 : r1.project = r2.project) (h3 : r1.tasks = r2.tasks)
    (h4 : r1.indexes = r2.indexes) :
    compute_projection_hash r1 = compute_projection_hash r2 ∧
    (materialize events now1 pn).map
        (fun r => r.meta.run.projection_hash_sha256) =
      (materialize events now2 pn).map
        (fun r => r.meta.run.projection_hash_sha256) :=
  ⟨compute_projection_hash_congr h1 h2 h3 h4,
    materialize_hash_now events now1 now2 pn⟩

/-- Witness for C1: two roadmaps differing only in `meta.updated_at`, and
an empty event store materialized at two distinct times. -/
theorem claim_C1_witness :
    compute_projection_hash
        { meta := { updated_at := .str "2024-01-01T00:00:00Z" },
          project := { name := "esaa-core" }, tasks := [], indexes := {} } =
      compute_projection_hash
        { meta := { updated_at := .str "2099-12-31T23:59:59Z" },
          project := { name := "esaa-core" }, tasks := [], indexes := {} } ∧
    (materialize [] "2024-01-01T00:00:00Z" "esaa-core").map
        (fun r => r.meta.run.projection_hash_sha256) =
      (materialize [] "2099-12-31T23:59:59Z" "esaa-core").map
        (fun r => r.meta.run.projection_hash_sha256) :=
  claim_C1 [] "2024-01-01T00:00:00Z" "2099-12-31T23:59:59Z" "esaa-core"
    { meta := { updated_at := .str "2024-01-01T00:00:00Z" },
      project := { name := "esaa-core" }, tasks := [], indexes := {} }
    { meta := { updated_at := .str "2099-12-31T23:59:59Z" },
      project := { name := "esaa-core" }, tasks := [], indexes := {} }
    rfl rfl rfl rfl

end ESAA

namespace ESAA

/-- C2: a `claim`, `complete` or `review` event targeting a task whose
status is `done` makes the whole apply fail with IMMUTABLE_DONE (so the
state, the task included, is unchanged), and across any successfully
folded event sequence every task record that is `done` is preserved
verbatim at its index — no event sequence moves a task out of `done`. -/
theorem claim_C2 {s : State} {e : Event} {tid : Json} {t : Task}
    {events : List Event} {s' : State}
    (hact : e.action = "claim" ∨ e.action = "complete" ∨
      e.action = "review")
    (hp : getItem e.payload "task_id" = .ok tid)
    (ht : taskById s.tasks tid = some t) (hd : t.status = "done")
    (hf : events.foldlM _apply_event s = .ok s') :
    _apply_event s e = .error (.esaa "IMMUTABLE_DONE") ∧
    ∀ (i : Nat) (u : Task), s.tasks[i]? = some u → u.status = "done" →
      s'.tasks[i]? = some u :=
  ⟨_apply_event_done_immutable hact hp ht hd, foldlM_preserves_done hf⟩

end ESAA

namespace ESAA

/-- A sample task already in status `done`. -/
def doneTaskC2 : Task :=
  { task_id := .str "T1", task_kind := .str "atomic", title := .str "db",
    description := .null, status := "done", depends_on := .arr [],
    targets := .arr [], outputs := .arr [] }

/-- A one-task state whose only task is `done`. -/
def doneStateC2 : State :=
  { meta := { updated_at := .str "T0" }, project := { name := "p" },
    tasks := [doneTaskC2] }

/-- A `claim` event targeting the `done` task. -/
def claimEventC2 : Event :=
  { schema_version := .str "0.4.0", event_id := .str "EV-2",
    event_seq := 2, ts := .str "T2", actor := .str "alice",
    action := "claim", payload := .obj [("task_id", .str "T1")] }

/-- Witness for C2: a `claim` on a `done` task fails with IMMUTABLE_DONE
and the task record survives an (empty) further fold. -/
theorem claim_C2_witness :
    _apply_event doneStateC2 claimEventC2
        = .error (.esaa "IMMUTABLE_DONE") ∧
    doneStateC2.tasks[0]? = some doneTaskC2 := by
  have h := @claim_C2 doneStateC2 claimEventC2 (.str "T1") doneTaskC2
    [] doneStateC2 (Or.inl rfl) (by decide) (by decide) rfl rfl
  exact ⟨h.1, h.2 0 _ (by decide) rfl⟩

end ESAA

namespace ESAA

/-- C5: the parse succeeds only with `event_seq` exactly `1..N` in order;
appending a line whose normalized `event_seq` is not an integer fails the
whole parse with `EVENT_SEQ_INVALID`, appending one whose `event_seq`
differs from the previous sequence number plus one fails it with
`EVENT_SEQ_NON_MONOTONIC`, and these corrupted-store errors are distinct
from domain (`esaa`) and Python-level errors. -/
theorem claim_C5 {lines : List Json} {events : List Event}
    {pre : List Json} {evs : List Event} {seen : List Json} {last : Int}
    {raw1 : Json} {kvs1 : List (String × Json)}
    {raw2 : Json} {kvs2 : List (String × Json)} {n : Int}
    (h : parse_event_store lines = .ok events)
    (hpre : parseAux pre [] 0 = .ok (evs, seen, last))
    (hn1 : normalize_legacy_event raw1 = .ok (.obj kvs1))
    (hs1 : (lookupKey kvs1 "event_seq").bind pyInt? = none)
    (hn2 : normalize_legacy_event raw2 = .ok (.obj kvs2))
    (hs2 : (lookupKey kvs2 "event_seq").bind pyInt? = some n)
    (hne : n ≠ last + 1) :
    (events.length = lines.length ∧
      ∀ (i : Nat) (hi : i < events.length),
        (events.get ⟨i, hi⟩).event_seq = i + 1) ∧
    parse_event_store (pre ++ [raw1])
        = .error (.corrupted "EVENT_SEQ_INVALID") ∧
    parse_event_store (pre ++ [raw2])
        = .error (.corrupted "EVENT_SEQ_NON_MONOTONIC") ∧
    ∀ c c' : String, Err.corrupted c ≠ Err.esaa c' ∧
      Err.corrupted c ≠ Err.py c' := by
  refine ⟨parse_event_store_seq h, ?_, ?_, ?_⟩
  · unfold parse_event_store
    rw [parseAux_append, hpre]
    simp only [Except.bind_ok_left, parseAux,
      parseStep_seq_invalid hn1 hs1, error_bind, error_map]
  · unfold parse_event_store
    rw [parseAux_append, hpre]
    simp only [Except.bind_ok_left, parseAux,
      parseStep_seq_nonmono hn2 hs2 hne, error_bind, error_map]
  · intro c c'
    exact ⟨fun hh => Err.noConfusion hh, fun hh => Err.noConfusion hh⟩

/-- Witness for C5: the empty store parses; a line with a string
`event_seq` fails as EVENT_SEQ_INVALID; a first line with `event_seq = 5`
fails as EVENT_SEQ_NON_MONOTONIC; the corrupted error differs from a
domain error. -/
theorem claim_C5_witness :
    parse_event_store [.obj [("event_seq", .str "x")]]
        = .error (.corrupted "EVENT_SEQ_INVALID") ∧
    parse_event_store [.obj [("event_seq", .num 5)]]
        = .error (.corrupted "EVENT_SEQ_NON_MONOTONIC") ∧
    Err.corrupted "EVENT_SEQ_INVALID" ≠ Err.esaa "TASK_NOT_FOUND" := by
  have h := @claim_C5 [] [] [] [] [] 0
    (.obj [("event_seq", .str "x")])
    [("event_seq", .str "x"), ("schema_version", .str "0.3.0")]
    (.obj [("event_seq", .num 5)])
    [("event_seq", .num 5), ("schema_version", .str "0.3.0")] 5
    rfl rfl (by decide) (by decide) (by decide) (by decide) (by decide)
  exact ⟨h.2.1, h.2.2.1, (h.2.2.2 _ _).1⟩

end ESAA

namespace ESAA

theorem taskById_some_any {tasks : List Task} {tid : Json} {t : Task}
    (h : taskById tasks tid = some t) :
    (tasks.any fun u => u.task_id = tid) = true := by
  induction tasks with
  | nil => exact absurd h (by simp [taskById])
  | cons u rest ih =>
    by_cases hu : u.task_id = tid
    · simp [hu]
    · rw [taskById, if_neg hu] at h
      simp [ih h]

/-- C10: a `task.create` whose `task_id` already exists never fails — the
projector appends a second task record — and id lookups over the grown
list still resolve to the first record; a `hotfix.create` with the same
already-present `task_id` raises DUPLICATE_TASK. -/
theorem claim_C10 {s : State} {e e2 : Event} {nt t0 : Task} {tid : Json}
    (ha : e.action = "task.create")
    (hnt : _new_task e.payload = .ok nt)
    (ht0 : taskById s.tasks tid = some t0)
    (ha2 : e2.action = "hotfix.create")
    (hp2 : getItem e2.payload "task_id" = .ok tid) :
    _apply_event s e
        = .ok (stampEvent { s with tasks := s.tasks ++ [nt] } e) ∧
    taskById (s.tasks ++ [nt]) tid = some t0 ∧
    _apply_event s e2 = .error (.esaa "DUPLICATE_TASK") := by
  refine ⟨_apply_event_task_create ha hnt, ?_,
    _apply_event_hotfix_dup ha2 hp2 (taskById_some_any ht0)⟩
  rw [taskById_append, ht0]

/-- The state for the C10 witness: one existing task `T1`. -/
def stateC10 : State :=
  { meta := { updated_at := .str "T0" }, project := { name := "p" },
    tasks := [
      { task_id := .str "T1", task_kind := .str "atomic",
        title := .str "first", description := .str "first",
        status := "todo", depends_on := .arr [], targets := .arr [],
        outputs := .obj [("files", .arr [])] }] }

/-- A second `task.create` event reusing task id `T1`. -/
def dupCreateEventC10 : Event :=
  { schema_version := .str "0.4.0", event_id := .str "EV-2",
    event_seq := 2, ts := .str "T2", actor := .str "orchestrator",
    action := "task.create",
    payload := .obj [("title", .str "second"), ("task_id", .str "T1"),
      ("task_kind", .str "atomic")] }

/-- A `hotfix.create` event reusing task id `T1`. -/
def dupHotfixEventC10 : Event :=
  { schema_version := .str "0.4.0", event_id := .str "EV-3",
    event_seq := 3, ts := .str "T3", actor := .str "orchestrator",
    action := "hotfix.create",
    payload := .obj [("task_id", .str "T1"), ("title", .str "hf")] }

/-- The task record the duplicate `task.create` appends. -/
def dupTaskC10 : Task :=
  { task_id := .str "T1", task_kind := .str "atomic",
    title := .str "second", description := .str "second",
    status := "todo", depends_on := .arr [], targets := .arr [],
    outputs := .obj [("files", .arr [])] }

/-- Witness for C10 on a concrete duplicated `T1`. -/
theorem claim_C10_witness :
    _apply_event stateC10 dupCreateEventC10
        = .ok (stampEvent { stateC10 with
            tasks := stateC10.tasks ++ [dupTaskC10] } dupCreateEventC10) ∧
    taskById (stateC10.tasks ++ [dupTaskC10]) (.str "T1")
        = some (stateC10.tasks.head (by simp [stateC10])) ∧
    _apply_event stateC10 dupHotfixEventC10
        = .error (.esaa "DUPLICATE_TASK") := by
  have h := @claim_C10 stateC10 dupCreateEventC10 dupHotfixEventC10
    dupTaskC10 (stateC10.tasks.head (by simp [stateC10])) (.str "T1")
    rfl (by decide) (by decide) rfl (by decide)
  exact h

end ESAA

namespace ESAA

/-- A task in `in_progress`, locked by `alice`. -/
def taskC6ip : Task :=
  { task_id := .str "T1", task_kind := .str "atomic",
    title := .str "db", description := .str "db",
    status := "in_progress", depends_on := .arr [], targets := .arr [],
    outputs := .obj [("files", .arr [])],
    assigned_to := some (.str "alice"), started_at := some (.str "T2") }

/-- A task in `review`, locked by `alice`. -/
def taskC6rv : Task :=
  { taskC6ip with status := "review" }

/-- An unclaimed task still in `todo`. -/
def taskC6todo : Task :=
  { task_id := .str "T1", task_kind := .str "atomic",
    title := .str "db", description := .str "db",
    status := "todo", depends_on := .arr [], targets := .arr [],
    outputs := .obj [("files", .arr [])] }

def stateC6ip : State :=
  { meta := { updated_at := .str "T0" }, project := { name := "p" },
    tasks := [taskC6ip] }

def stateC6rv : State :=
  { meta := { updated_at := .str "T0" }, project := { name := "p" },
    tasks := [taskC6rv] }

def stateC6todo : State :=
  { meta := { updated_at := .str "T0" }, project := { name := "p" },
    tasks := [taskC6todo] }

/-- A `complete` by `mallory`, who does not hold the lock. -/
def wrongCompleteC6 : Event :=
  { schema_version := .str "0.4.0", event_id := .str "EV-3",
    event_seq := 3, ts := .str "T3", actor := .str "mallory",
    action := "complete", payload := .obj [("task_id", .str "T1")] }

/-- A `review` by `mallory`, who does not hold the lock. -/
def wrongReviewC6 : Event :=
  { schema_version := .str "0.4.0", event_id := .str "EV-5",
    event_seq := 5, ts := .str "T5", actor := .str "mallory",
    action := "review",
    payload := .obj [("task_id", .str "T1"),
      ("decision", .str "approve")] }

/-- A `complete` by the lock owner `alice`. -/
def okCompleteC6 : Event :=
  { schema_version := .str "0.4.0", event_id := .str "EV-4",
    event_seq := 4, ts := .str "T4", actor := .str "alice",
    action := "complete", payload := .obj [("task_id", .str "T1")] }

/-- C6 (corrected): a wrong-actor `complete` on an `in_progress` task and
a wrong-actor `review` on a `review` task raise NOT_LOCK_OWNER, and no
`complete` or `review` ever succeeds unless the event's actor equals the
task's `assigned_to` — but the owner check runs only after the status
checks, so on other statuses a wrong-actor event fails differently. -/
theorem claim_C6 {s1 s2 s3 : State} {e1 e2 e3 : Event}
    {tid1 tid2 : Json} {t1 t2 : Task} {s3' : State}
    (ha1 : e1.action = "complete")
    (hp1 : getItem e1.payload "task_id" = .ok tid1)
    (ht1 : taskById s1.tasks tid1 = some t1)
    (hst1 : t1.status = "in_progress")
    (how1 : t1.assigned_to.getD .null ≠ e1.actor)
    (ha2 : e2.action = "review")
    (hp2 : getItem e2.payload "task_id" = .ok tid2)
    (ht2 : taskById s2.tasks tid2 = some t2)
    (hst2 : t2.status = "review")
    (how2 : t2.assigned_to.getD .null ≠ e2.actor)
    (ha3 : e3.action = "complete" ∨ e3.action = "review")
    (h3 : _apply_event s3 e3 = .ok s3') :
    _apply_event s1 e1 = .error (.esaa "NOT_LOCK_OWNER") ∧
    _apply_event s2 e2 = .error (.esaa "NOT_LOCK_OWNER") ∧
    ∃ tid t, getItem e3.payload "task_id" = .ok tid ∧
      taskById s3.tasks tid = some t ∧
      t.assigned_to.getD .null = e3.actor :=
  ⟨_apply_event_complete_not_owner ha1 hp1 ht1 hst1 how1,
    _apply_event_review_not_owner ha2 hp2 ht2 hst2 how2,
    _apply_event_owner_of_ok ha3 h3⟩

/-- Witness for C6: `mallory` completing or reviewing `alice`'s task. -/
theorem claim_C6_witness :
    _apply_event stateC6ip wrongCompleteC6
        = .error (.esaa "NOT_LOCK_OWNER") ∧
    _apply_event stateC6rv wrongReviewC6
        = .error (.esaa "NOT_LOCK_OWNER") := by
  have h := @claim_C6 stateC6ip stateC6rv stateC6ip
    wrongCompleteC6 wrongReviewC6 okCompleteC6
    (.str "T1") (.str "T1") taskC6ip taskC6rv
    (stampEvent { stateC6ip with
      tasks := [{ taskC6ip with status := "review" }] } okCompleteC6)
    rfl (by decide) (by decide) rfl (by decide)
    rfl (by decide) (by decide) rfl (by decide)
    (Or.inl rfl) (by decide)
  exact ⟨h.1, h.2.1⟩

/-- Counterexample to C6 as stated: a wrong-actor `complete` on a task
still in `todo` fails with INVALID_TRANSITION, not NOT_LOCK_OWNER. -/
theorem claim_C6_counterexample :
    taskById stateC6todo.tasks (.str "T1") = some taskC6todo ∧
    wrongCompleteC6.action = "complete" ∧
    taskC6todo.assigned_to.getD .null ≠ wrongCompleteC6.actor ∧
    _apply_event stateC6todo wrongCompleteC6
        = .error (.esaa "INVALID_TRANSITION") := by
  refine ⟨by decide, rfl, by decide, by decide⟩

end ESAA

namespace ESAA

def taskC9 : Task :=
  { task_id := .str "T1", task_kind := .str "atomic",
    title := .str "db", description := .str "db",
    status := "review", depends_on := .arr [], targets := .arr [],
    outputs := .obj [("files", .arr [])],
    assigned_to := some (.str "alice"), started_at := some (.str "T2") }

def stateC9 : State :=
  { meta := { updated_at := .str "T0" }, project := { name := "p" },
    tasks := [taskC9] }

def rcReviewC9 : Event :=
  { schema_version := .str "0.4.0", event_id := .str "EV-4",
    event_seq := 4, ts := .str "T4", actor := .str "alice",
    action := "review",
    payload := .obj [("task_id", .str "T1"),
      ("decision", .str "request_changes")] }

def completeC9 : Event :=
  { schema_version := .str "0.4.0", event_id := .str "EV-5",
    event_seq := 5, ts := .str "T5", actor := .str "alice",
    action := "complete", payload := .obj [("task_id", .str "T1")] }

def approveC9 : Event :=
  { schema_version := .str "0.4.0", event_id := .str "EV-6",
    event_seq := 6, ts := .str "T6", actor := .str "alice",
    action := "review",
    payload := .obj [("task_id", .str "T1"),
      ("decision", .str "approve")] }

def claimAgainC9 : Event :=
  { schema_version := .str "0.4.0", event_id := .str "EV-7",
    event_seq := 7, ts := .str "T7", actor := .str "alice",
    action := "claim", payload := .obj [("task_id", .str "T1")] }

def s1C9 : State :=
  stampEvent { stateC9 with
    tasks := [{ taskC9 with status := "in_progress" }] } rcReviewC9

def s2C9 : State :=
  stampEvent { s1C9 with tasks := [taskC9] } completeC9

def s3C9 : State :=
  stampEvent { s2C9 with
    tasks := [
      { taskC9 with
        status := "done",
        completed_at := some (.str "T6") }] } approveC9

/-- C9 (corrected): a `review` with decision `request_changes` moves the
task back to `in_progress` while leaving every other field — in
particular `assigned_to` and `started_at` — unchanged, and after any
further successfully applied events a `claim` on that task always fails:
with LOCKED_TASK while the task is `in_progress` or `review`, and with
IMMUTABLE_DONE once it has reached `done`. -/
theorem claim_C9 {s s' s'' : State} {e : Event} {tid : Json} {t : Task}
    {od : Option Json} {events : List Event} {e2 : Event}
    (ha : e.action = "review")
    (hp : getItem e.payload "task_id" = .ok tid)
    (ht : taskById s.tasks tid = some t)
    (hod : pyGet e.payload "decision" = .ok od)
    (hrc : od.getD .null = .str "request_changes")
    (h : _apply_event s e = .ok s')
    (hf : events.foldlM _apply_event s' = .ok s'')
    (ha2 : e2.action = "claim")
    (hp2 : getItem e2.payload "task_id" = .ok tid) :
    taskById s'.tasks tid = some { t with status := "in_progress" } ∧
    ∃ t', taskById s''.tasks tid = some t' ∧
      _apply_event s'' e2 = .error (.esaa
        (if t'.status = "done" then "IMMUTABLE_DONE"
          else "LOCKED_TASK")) := by
  have h1 := _apply_event_review_rc ha hp ht hod hrc h
  obtain ⟨t', ht', hst'⟩ := foldlM_preserves_claimed hf h1 (Or.inl rfl)
  exact ⟨h1, t', ht', _apply_event_claim_on_claimed ha2 hp2 ht' hst'⟩

/-- Witness for C9: after `request_changes` the task is `in_progress`
with the lock intact, and even the owner's own re-`claim` fails with
LOCKED_TASK. -/
theorem claim_C9_witness :
    taskById s1C9.tasks (.str "T1")
        = some { taskC9 with status := "in_progress" } ∧
    _apply_event s1C9 claimAgainC9 = .error (.esaa "LOCKED_TASK") := by
  have h := @claim_C9 stateC9 s1C9 s1C9 rcReviewC9 (.str "T1") taskC9
    (some (.str "request_changes")) [] claimAgainC9
    rfl (by decide) (by decide) (by decide) rfl (by decide) rfl rfl
    (by decide)
  obtain ⟨h1, t', ht', herr⟩ := h
  have hte : t' = { taskC9 with status := "in_progress" } := by
    rw [h1] at ht'
    exact (Option.some.inj ht').symm
  subst hte
  refine ⟨h1, ?_⟩
  rw [herr]
  decide

/-- Counterexample to C9 as stated: the lock survives `request_changes`,
but once the task is completed again and approved to `done`, a further
`claim` fails with IMMUTABLE_DONE — not LOCKED_TASK as the claim says
every subsequent claim does. -/
theorem claim_C9_counterexample :
    _apply_event stateC9 rcReviewC9 = .ok s1C9 ∧
    _apply_event s1C9 completeC9 = .ok s2C9 ∧
    _apply_event s2C9 approveC9 = .ok s3C9 ∧
    _apply_event s3C9 claimAgainC9 = .error (.esaa "IMMUTABLE_DONE") ∧
    Err.esaa "IMMUTABLE_DONE" ≠ Err.esaa "LOCKED_TASK" := by
  refine ⟨by decide, by decide, by decide, by decide, by decide⟩

end ESAA

namespace ESAA

/-- C4 (corrected): a successful `issue.report` whose `issue_id` already
exists reopens the issue (`status := "open"`) and recopies the payload's
`severity`, `title` and `evidence` onto the existing record — every other
field of the record, `affected` and `baseline_id` included, is kept from
the first report, and the tasks are untouched. -/
theorem claim_C4 {s : State} {e : Event} {s' : State}
    (ha : e.action = "issue.report")
    (h : _apply_event s e = .ok s') :
    ∃ kvs iid, e.payload = .obj kvs ∧
      lookupKey kvs "issue_id" = some iid ∧
      s'.tasks = s.tasks ∧
      ∀ issue, findIssue s.issues iid = some issue →
        s'.issues = setIssue s.issues iid
          { issue with
            status := "open",
            severity := (lookupKey kvs "severity").getD issue.severity,
            title := (lookupKey kvs "title").getD issue.title,
            evidence := (lookupKey kvs "evidence").getD issue.evidence } := by
  obtain ⟨s'', hact, hstamp⟩ := _apply_event_ok h
  have hrep : _apply_issue_report s e = .ok s'' := by
    rw [← hact]
    unfold _apply_action
    rw [if_neg (by simp [ha]), if_neg (by simp [ha]), if_neg (by simp [ha]),
      if_neg (by simp [ha]), if_neg (by simp [ha]), if_neg (by simp [ha]),
      if_pos ha]
  obtain ⟨kvs, iid, hobj, hlk, htasks, -, -, -, hupd⟩ :=
    _apply_issue_report_ok_spec hrep
  have hs'tasks : s'.tasks = s''.tasks := by rw [hstamp]
  have hs'issues : s'.issues = s''.issues := by rw [hstamp]
  exact ⟨kvs, iid, hobj, hlk, by rw [hs'tasks, htasks], fun issue hfi =>
    by rw [hs'issues, hupd issue hfi]⟩

/-- The issue already on file, reported with `affected = {"f": 1}`. -/
def issueC4 : Issue :=
  { issue_id := .str "I1", status := "resolved", severity := .str "low",
    title := .str "t1", baseline_id := .null,
    affected := .obj [("f", .num 1)], evidence := .obj [],
    resolution := .null,
    links := { reported_by_task_id := .null,
               fixes_task_id := .null,
               hotfix_task_id := .null },
    timeline := { created_event_seq := 1, resolved_event_seq := none } }

def stateC4 : State :=
  { meta := { updated_at := .str "T0" }, project := { name := "p" },
    issues := [(.str "I1", issueC4)] }

/-- A re-report of `I1` with a different severity and `affected`. -/
def reportC4 : Event :=
  { schema_version := .str "0.4.0", event_id := .str "EV-2",
    event_seq := 2, ts := .str "T2", actor := .str "alice",
    action := "issue.report",
    payload := .obj [("issue_id", .str "I1"), ("severity", .str "high"),
      ("affected", .obj [("f", .num 2)])] }

/-- The state after the re-report: reopened, severity recopied, the rest
kept. -/
def resultC4 : State :=
  stampEvent { stateC4 with
    issues := [(.str "I1",
      { issueC4 with
        status := "open",
        severity := .str "high" })] }
    reportC4

/-- Witness for C4: applying the re-report to the concrete state updates
exactly status, severity, title and evidence of the stored issue. -/
theorem claim_C4_witness :
    resultC4.tasks = stateC4.tasks ∧
    resultC4.issues = setIssue stateC4.issues (.str "I1")
      { issueC4 with
        status := "open",
        severity := (lookupKey [("issue_id", .str "I1"),
          ("severity", .str "high"), ("affected", .obj [("f", .num 2)])]
          "severity").getD issueC4.severity,
        title := (lookupKey [("issue_id", .str "I1"),
          ("severity", .str "high"), ("affected", .obj [("f", .num 2)])]
          "title").getD issueC4.title,
        evidence := (lookupKey [("issue_id", .str "I1"),
          ("severity", .str "high"), ("affected", .obj [("f", .num 2)])]
          "evidence").getD issueC4.evidence } := by
  have h := @claim_C4 stateC4 reportC4 resultC4 rfl (by decide)
  obtain ⟨kvs, iid, hobj, hlk, htasks, hupd⟩ := h
  have hkvs : [("issue_id", Json.str "I1"),
      ("severity", Json.str "high"),
      ("affected", Json.obj [("f", Json.num 2)])] = kvs :=
    Json.obj.inj hobj
  subst hkvs
  have hiid : iid = .str "I1" := by
    have h2 : some (Json.str "I1") = some iid := hlk
    exact (Option.some.inj h2).symm
  subst hiid
  exact ⟨htasks, hupd issueC4 rfl⟩

/-- Counterexample to C4 as stated: the re-report carries
`affected = {"f": 2}`, yet the stored issue keeps `affected = {"f": 1}`
from the first report — `affected` is not recopied. -/
theorem claim_C4_counterexample :
    _apply_event stateC4 reportC4 = .ok resultC4 ∧
    getItem reportC4.payload "affected" = .ok (.obj [("f", .num 2)]) ∧
    findIssue resultC4.issues (.str "I1")
        = some { issueC4 with
                  status := "open",
                  severity := .str "high" } ∧
    ({ issueC4 with
       status := "open",
       severity := .str "high" } : Issue).affected
        = .obj [("f", .num 1)] ∧
    Json.obj [("f", .num 1)] ≠ .obj [("f", .num 2)] := by
  refine ⟨by decide, by decide, by decide, by decide, by decide⟩

end ESAA

namespace ESAA

/-- C7: on a store that parses (so its events are numbered `1..N`),
replay with a numeric `until` string `u` selects exactly the prefix of
the first `u` events, and the projection hash replay reports equals the
hash of materializing that prefix directly (whatever wall-clock time
either materialization runs at). -/
theorem claim_C7 {lines : List Json} {events : List Event} {u : String}
    {k : Nat} (now now2 : String)
    (hp : parse_event_store lines = .ok events)
    (hd : strIsDigit u = true) (hk : strToNat u = k) :
    replaySelect events (some u) = events.take k ∧
    (replay lines (some u) now).map (fun r => r.projection_hash_sha256)
      = (materialize (events.take k) now2).map
          (fun r => r.meta.run.projection_hash_sha256) := by
  have hseq := (parse_event_store_seq hp).2
  have hsel := replaySelect_digits hd hk hseq
  refine ⟨hsel, ?_⟩
  unfold replay
  rw [hp]
  simp only [ok_bind]
  rw [hsel]
  have hnow := materialize_hash_now (events.take k) now now2 "esaa-core"
  cases hm : materialize (events.take k) now "esaa-core" with
  | error err =>
    rw [hm] at hnow
    simp only [error_bind, error_map] at hnow ⊢
    exact hnow
  | ok roadmap =>
    rw [hm] at hnow
    simp only [ok_bind, pure_eq_ok, ok_map] at hnow ⊢
    exact hnow

/-- The two stored lines of the C7 witness. -/
def linesC7 : List Json :=
  [.obj [("schema_version", .str "0.4.0"), ("event_id", .str "E1"),
    ("event_seq", .num 1), ("ts", .str "T1"), ("actor", .str "o"),
    ("action", .str "run.start"), ("payload", .obj [])],
   .obj [("schema_version", .str "0.4.0"), ("event_id", .str "E2"),
    ("event_seq", .num 2), ("ts", .str "T2"), ("actor", .str "o"),
    ("action", .str "run.end"), ("payload", .obj [])]]

/-- The events `linesC7` parses to. -/
def eventsC7 : List Event :=
  [{ schema_version := .str "0.4.0", event_id := .str "E1",
     event_seq := 1, ts := .str "T1", actor := .str "o",
     action := "run.start", payload := .obj [] },
   { schema_version := .str "0.4.0", event_id := .str "E2",
     event_seq := 2, ts := .str "T2", actor := .str "o",
     action := "run.end", payload := .obj [] }]

/-- Witness for C7: replaying the two-event store until `"1"` selects the
first event and reports the same hash as materializing it directly. -/
theorem claim_C7_witness :
    replaySelect eventsC7 (some "1") = eventsC7.take 1 ∧
    (replay linesC7 (some "1") "A").map
        (fun r => r.projection_hash_sha256)
      = (materialize (eventsC7.take 1) "B").map
          (fun r => r.meta.run.projection_hash_sha256) :=
  @claim_C7 linesC7 eventsC7 "1" 1 "A" "B" (by decide) rfl rfl

end ESAA
